import Mathlib

/-!
Shallow embedding of the `cloudantclient` repository (an HTTP/2 Cloudant
client) and proofs about its request normalization, response
classification, IAM credential lifecycle, fan-out and path helpers.

Sources embedded here:
  * `src/index.js`   — class `CloudantClient` (`request`, `requests`, `iam`,
    `combinePaths`, `db`);
  * `src/iam.js`     — class `IAM` (`jsonParse`, the HTTPS `request` close
    handler, `auth`);
  * `src/httpclient.js` — class `HttpClient` (body encoding in `request`);
  * `src/constants.js`  — string constants.

JavaScript runtime pieces the source leans on are modelled explicitly:
JSON values, `JSON.parse` / `JSON.stringify`, JS truthiness, `typeof`,
`String.prototype.toUpperCase`, `querystring.stringify`,
`encodeURIComponent`, and Node's `setTimeout` delay clamping.  JS numbers
are modelled as integers (the claims under study exercise no float
arithmetic); a non-integer JSON number literal is kept as its lexeme.
The cookie jar (`src/cookie.js`) is not part of `src/`; it is kept
abstract as a lookup function `String → String`, exactly the interface
`index.js` consumes via `getCookieString`.
-/

/-- Model of a JavaScript JSON value as produced/consumed by `JSON.parse`
and `JSON.stringify`.  `numRaw` keeps the lexeme of a non-integer number
literal (the claims never compute with such values). -/
inductive JsValue where
  | null : JsValue
  | bool (b : Bool) : JsValue
  | num (n : Int) : JsValue
  | numRaw (lexeme : String) : JsValue
  | str (s : String) : JsValue
  | arr (elems : List JsValue) : JsValue
  | obj (members : List (String × JsValue)) : JsValue
deriving Repr, BEq

/-- JavaScript truthiness (`if (v)`): `null`, `false`, `0`, and `""` are
falsy, every array/object is truthy. -/
def jsTruthy : JsValue → Bool
  | .null => false
  | .bool b => b
  | .num n => n ≠ 0
  | .numRaw _ => true
  | .str s => s ≠ ""
  | .arr _ => true
  | .obj _ => true

/-- JavaScript `typeof v === 'object'` for a JSON value: true for objects,
arrays and `null`. -/
def jsTypeofObject : JsValue → Bool
  | .obj _ => true
  | .arr _ => true
  | .null => true
  | _ => false

/-- Truthiness of an optional JS string field (`undefined` and `""` are
falsy). -/
def truthyStr : Option String → Bool
  | none => false
  | some s => s ≠ ""

/-- Uppercase hex digit, as used by percent-encoding and `\uXXXX` escapes. -/
def hexDigit : Nat → Char
  | 0 => '0' | 1 => '1' | 2 => '2' | 3 => '3' | 4 => '4'
  | 5 => '5' | 6 => '6' | 7 => '7' | 8 => '8' | 9 => '9'
  | 10 => 'A' | 11 => 'B' | 12 => 'C' | 13 => 'D' | 14 => 'E' | 15 => 'F'
  | _ => '0'

/-- JSON string escaping as performed by `JSON.stringify` on a string:
quote and backslash are escaped, common control characters use their short
escapes, remaining control characters use `\u00XX`. -/
def jsonEscapeChar (c : Char) : List Char :=
  if c = '"' then ['\\', '"']
  else if c = '\\' then ['\\', '\\']
  else if c = '\n' then ['\\', 'n']
  else if c = '\r' then ['\\', 'r']
  else if c = '\t' then ['\\', 't']
  else if c = '\x08' then ['\\', 'b']
  else if c = '\x0c' then ['\\', 'f']
  else if c.toNat < 32 then
    ['\\', 'u', '0', '0', hexDigit (c.toNat / 16), hexDigit (c.toNat % 16)]
  else [c]

/-- Escape a whole string for inclusion in JSON output. -/
def jsonEscape (s : String) : String :=
  ⟨s.data.flatMap jsonEscapeChar⟩

mutual
/-- Model of `JSON.stringify` on JSON values (object member order is the
insertion order, as in V8). -/
def jsonStringify : JsValue → String
  | .null => "null"
  | .bool true => "true"
  | .bool false => "false"
  | .num n => toString n
  | .numRaw lx => lx
  | .str s => "\"" ++ jsonEscape s ++ "\""
  | .arr xs => "[" ++ jsonStringifyElems xs ++ "]"
  | .obj kvs => "\x7b" ++ jsonStringifyMembers kvs ++ "\x7d"

/-- Comma-separated serialization of array elements. -/
def jsonStringifyElems : List JsValue → String
  | [] => ""
  | [x] => jsonStringify x
  | x :: y :: xs => jsonStringify x ++ "," ++ jsonStringifyElems (y :: xs)

/-- Comma-separated serialization of object members. -/
def jsonStringifyMembers : List (String × JsValue) → String
  | [] => ""
  | [(k, v)] => "\"" ++ jsonEscape k ++ "\":" ++ jsonStringify v
  | (k, v) :: m :: kvs =>
      "\"" ++ jsonEscape k ++ "\":" ++ jsonStringify v ++ "," ++
        jsonStringifyMembers (m :: kvs)
end

example : jsonStringify (.obj [("a", .num 1)]) = "\x7b\"a\":1\x7d" := by rfl

/-- JSON insignificant whitespace. -/
def jsonIsWs (c : Char) : Bool :=
  c = ' ' ∨ c = '\t' ∨ c = '\n' ∨ c = '\r'

/-- Drop leading JSON whitespace. -/
def jsonSkipWs (cs : List Char) : List Char :=
  cs.dropWhile jsonIsWs

/-- Value of a hex digit character, `none` when not a hex digit. -/
def hexVal (c : Char) : Option Nat :=
  if '0' ≤ c ∧ c ≤ '9' then some (c.toNat - 48)
  else if 'A' ≤ c ∧ c ≤ 'F' then some (c.toNat - 55)
  else if 'a' ≤ c ∧ c ≤ 'f' then some (c.toNat - 87)
  else none

/-- Scan the body of a JSON string literal (the opening quote already
consumed), returning the decoded characters and the remainder after the
closing quote.  Handles the escapes `JSON.parse` accepts; a `\uXXXX`
escape denoting an invalid scalar value makes the parse fail (a lone
surrogate — a corner the claims do not exercise). -/
def jsonScanString : List Char → Option (List Char × List Char)
  | [] => none
  | '"' :: rest => some ([], rest)
  | '\\' :: e :: rest =>
      match e with
      | '"' => (jsonScanString rest).map (fun (s, r) => ('"' :: s, r))
      | '\\' => (jsonScanString rest).map (fun (s, r) => ('\\' :: s, r))
      | '/' => (jsonScanString rest).map (fun (s, r) => ('/' :: s, r))
      | 'b' => (jsonScanString rest).map (fun (s, r) => ('\x08' :: s, r))
      | 'f' => (jsonScanString rest).map (fun (s, r) => ('\x0c' :: s, r))
      | 'n' => (jsonScanString rest).map (fun (s, r) => ('\n' :: s, r))
      | 'r' => (jsonScanString rest).map (fun (s, r) => ('\r' :: s, r))
      | 't' => (jsonScanString rest).map (fun (s, r) => ('\t' :: s, r))
      | 'u' =>
          match rest with
          | h1 :: h2 :: h3 :: h4 :: rest2 =>
              match hexVal h1, hexVal h2, hexVal h3, hexVal h4 with
              | some n1, some n2, some n3, some n4 =>
                  let n := n1 * 4096 + n2 * 256 + n3 * 16 + n4
                  if h : n.isValidChar then
                    (jsonScanString rest2).map (fun (s, r) => (Char.ofNatAux n h :: s, r))
                  else none
              | _, _, _, _ => none
          | _ => none
      | _ => none
  | c :: rest =>
      if c.toNat < 32 then none
      else (jsonScanString rest).map (fun (s, r) => (c :: s, r))

/-- Lex the digits of a JSON number after an optional minus sign. -/
def jsonTakeDigits (cs : List Char) : List Char × List Char :=
  (cs.takeWhile Char.isDigit, cs.dropWhile Char.isDigit)

/-- Decimal value of a digit list. -/
def digitsToNat (ds : List Char) : Nat :=
  ds.foldl (fun acc c => acc * 10 + (c.toNat - 48)) 0

/-- Scan an optional JSON fraction part, returning its lexeme (possibly
empty) and the remainder; `none` when a `.` is not followed by digits. -/
def jsonScanFrac (cs : List Char) : Option (List Char × List Char) :=
  match cs with
  | '.' :: t =>
      match jsonTakeDigits t with
      | ([], _) => none
      | (fs, r) => some ('.' :: fs, r)
  | _ => some ([], cs)

/-- Scan an optional JSON exponent part, returning its lexeme (possibly
empty) and the remainder; `none` when `e`/`E` is not followed by digits. -/
def jsonScanExp (cs : List Char) : Option (List Char × List Char) :=
  match cs with
  | e :: t =>
      if e = 'e' ∨ e = 'E' then
        match t with
        | s :: t2 =>
            if s = '+' ∨ s = '-' then
              match jsonTakeDigits t2 with
              | ([], _) => none
              | (es, r) => some (e :: s :: es, r)
            else
              match jsonTakeDigits t with
              | ([], _) => none
              | (es, r) => some (e :: es, r)
        | [] => none
      else some ([], cs)
  | [] => some ([], cs)

/-- Scan a JSON number starting at `cs` (which is known to start with `-`
or a digit), returning its value and the remainder.  Integer lexemes
become `JsValue.num`; lexemes with a fraction or exponent part are kept
as `JsValue.numRaw` of their lexeme. -/
def jsonScanNumber (cs : List Char) : Option (JsValue × List Char) :=
  let (neg, cs1) := match cs with
    | '-' :: t => (true, t)
    | _ => (false, cs)
  match jsonTakeDigits cs1 with
  | ([], _) => none
  | (ds, rest) =>
      -- a leading zero may only stand alone
      if ds.length > 1 && ds.headI = '0' then none
      else
        match jsonScanFrac rest with
        | none => none
        | some (frac, rest2) =>
            match jsonScanExp rest2 with
            | none => none
            | some (expo, rest3) =>
                if frac = [] && expo = [] then
                  let v : Int :=
                    if neg then -(digitsToNat ds : Int) else (digitsToNat ds : Int)
                  some (.num v, rest)
                else
                  let lexeme : List Char :=
                    (if neg then ['-'] else []) ++ ds ++ frac ++ expo
                  some (.numRaw ⟨lexeme⟩, rest3)

mutual
/-- Recursive-descent JSON value scanner (model of the grammar accepted by
`JSON.parse`), with fuel bounding nesting depth. -/
def jsonScanValue : Nat → List Char → Option (JsValue × List Char)
  | 0, _ => none
  | _ + 1, [] => none
  | fuel + 1, c :: rest =>
      match c with
      | 'n' =>
          match rest with
          | 'u' :: 'l' :: 'l' :: r => some (.null, r)
          | _ => none
      | 't' =>
          match rest with
          | 'r' :: 'u' :: 'e' :: r => some (.bool true, r)
          | _ => none
      | 'f' =>
          match rest with
          | 'a' :: 'l' :: 's' :: 'e' :: r => some (.bool false, r)
          | _ => none
      | '"' =>
          (jsonScanString rest).map (fun (s, r) => (.str ⟨s⟩, r))
      | '[' =>
          match jsonSkipWs rest with
          | ']' :: r => some (.arr [], r)
          | cs => (jsonScanElems fuel cs).map (fun (xs, r) => (.arr xs, r))
      | '\x7b' =>
          match jsonSkipWs rest with
          | '\x7d' :: r => some (.obj [], r)
          | cs => (jsonScanMembers fuel cs).map (fun (kvs, r) => (.obj kvs, r))
      | _ =>
          if c = '-' ∨ c.isDigit then jsonScanNumber (c :: rest) else none

/-- Scan one-or-more comma-separated array elements up to `]`. -/
def jsonScanElems : Nat → List Char → Option (List JsValue × List Char)
  | 0, _ => none
  | fuel + 1, cs => do
      let (v, r1) ← jsonScanValue fuel (jsonSkipWs cs)
      match jsonSkipWs r1 with
      | ',' :: r2 => (jsonScanElems fuel r2).map (fun (xs, r) => (v :: xs, r))
      | ']' :: r2 => some ([v], r2)
      | _ => none

/-- Scan one-or-more comma-separated object members up to the closing
brace. -/
def jsonScanMembers : Nat → List Char → Option (List (String × JsValue) × List Char)
  | 0, _ => none
  | fuel + 1, cs =>
      match jsonSkipWs cs with
      | '"' :: r0 => do
          let (k, r1) ← jsonScanString r0
          match jsonSkipWs r1 with
          | ':' :: r2 => do
              let (v, r3) ← jsonScanValue fuel (jsonSkipWs r2)
              match jsonSkipWs r3 with
              | ',' :: r4 =>
                  (jsonScanMembers fuel r4).map (fun (kvs, r) => ((⟨k⟩, v) :: kvs, r))
              | '\x7d' :: r4 => some ([(⟨k⟩, v)], r4)
              | _ => none
          | _ => none
      | _ => none
end

/-- Model of `JSON.parse`: `some v` when the text is valid JSON, `none`
when `JSON.parse` would throw a `SyntaxError`. -/
def jsonParseOpt (s : String) : Option JsValue :=
  match jsonScanValue (s.data.length + 1) (jsonSkipWs s.data) with
  | some (v, rest) => if jsonSkipWs rest = [] then some v else none
  | none => none

example : jsonParseOpt "\x7b\"a\": [1, true, null]\x7d" =
    some (.obj [("a", .arr [.num 1, .bool true, .null])]) := by rfl
example : jsonParseOpt "<html>" = none := by rfl
example : jsonParseOpt "" = none := by rfl
example : jsonParseOpt " \"x\" " = some (.str "x") := by rfl
example : jsonParseOpt "-12" = some (.num (-12)) := by rfl
example : jsonParseOpt "1.5e3" = some (.numRaw "1.5e3") := by rfl
example : jsonParseOpt "01" = none := by rfl
example : jsonParseOpt "[1," = none := by rfl

/-- Model of `String.prototype.toUpperCase` on one character (ASCII range;
the source only uppercases HTTP method names). -/
def jsToUpperChar : Char → Char
  | 'a' => 'A' | 'b' => 'B' | 'c' => 'C' | 'd' => 'D' | 'e' => 'E'
  | 'f' => 'F' | 'g' => 'G' | 'h' => 'H' | 'i' => 'I' | 'j' => 'J'
  | 'k' => 'K' | 'l' => 'L' | 'm' => 'M' | 'n' => 'N' | 'o' => 'O'
  | 'p' => 'P' | 'q' => 'Q' | 'r' => 'R' | 's' => 'S' | 't' => 'T'
  | 'u' => 'U' | 'v' => 'V' | 'w' => 'W' | 'x' => 'X' | 'y' => 'Y'
  | 'z' => 'Z'
  | c => c

/-- Model of `String.prototype.toUpperCase`. -/
def jsToUpperCase (s : String) : String :=
  ⟨s.data.map jsToUpperChar⟩

example : jsToUpperCase "get" = "GET" := by rfl

/-- Characters `encodeURIComponent` (and Node's `querystring.escape`)
leaves unescaped: alphanumerics and `- _ . ! ~ * ' ( )`. -/
def uriUnreserved (c : Char) : Bool :=
  (('A' ≤ c ∧ c ≤ 'Z') ∨ ('a' ≤ c ∧ c ≤ 'z') ∨ ('0' ≤ c ∧ c ≤ '9')) ∨
    c = '-' ∨ c = '_' ∨ c = '.' ∨ c = '!' ∨ c = '~' ∨ c = '*' ∨
    c = Char.ofNat 39 ∨ c = '(' ∨ c = ')'

/-- UTF-8 bytes of a character (standard 1–4 byte encoding of its scalar
value). -/
def utf8Bytes (c : Char) : List Nat :=
  let n := c.toNat
  if n < 128 then [n]
  else if n < 2048 then [192 + n / 64, 128 + n % 64]
  else if n < 65536 then [224 + n / 4096, 128 + (n / 64) % 64, 128 + n % 64]
  else [240 + n / 262144, 128 + (n / 4096) % 64, 128 + (n / 64) % 64, 128 + n % 64]

/-- Percent-escape of one byte: `%` followed by two uppercase hex digits. -/
def percentByte (b : Nat) : List Char :=
  ['%', hexDigit (b / 16 % 16), hexDigit (b % 16)]

/-- Model of `encodeURIComponent`: unreserved characters pass through,
everything else is percent-encoded byte-wise as UTF-8. -/
def encodeURIComponent (s : String) : String :=
  ⟨s.data.flatMap (fun c =>
    if uriUnreserved c then [c] else (utf8Bytes c).flatMap percentByte)⟩

example : encodeURIComponent "my db" = "my%20db" := by rfl
example : encodeURIComponent "a_b.c" = "a_b.c" := by rfl
example : encodeURIComponent "a/b" = "a%2Fb" := by rfl

/-- Stringification `querystring.stringify` applies to one primitive
value (strings stay; numbers and booleans print; other values become the
empty string). -/
def qsPrimToString : JsValue → String
  | .str s => s
  | .num n => toString n
  | .numRaw lx => lx
  | .bool true => "true"
  | .bool false => "false"
  | _ => ""

/-- Model of Node's `querystring.stringify`: percent-escaped `k=v` pairs
joined by `&`, in the object's insertion order. -/
def querystringStringify (q : List (String × JsValue)) : String :=
  String.intercalate "&"
    (q.map (fun kv =>
      encodeURIComponent kv.1 ++ "=" ++ encodeURIComponent (qsPrimToString kv.2)))

example : querystringStringify [("include_docs", .bool true), ("limit", .num 5)] =
    "include_docs=true&limit=5" := by rfl
example : querystringStringify [("name", .str "alice"), ("password", .str "secret")] =
    "name=alice&password=secret" := by rfl

namespace constants

/-- Source: `src/constants.js` and the top of `src/index.js`. -/
def MIME_FORM_ENCODED : String := "application/x-www-form-urlencoded"

/-- JSON mime type constant. -/
def MIME_JSON : String := "application/json"

/-- Default HTTP method constant. -/
def HTTP_GET : String := "GET"

/-- Default request path constant. -/
def DEFAULT_PATH : String := "/"

end constants

/-- The request options object passed to `CloudantClient.request`
(`src/index.js`).  JS object keys are optional fields; `h2method` and
`h2path` stand for the `':method'` and `':path'` pseudo-header keys, and
`contentType` for the `'content-type'` key.  The same object is mutated
in place by `request`, so this type describes both the caller's
description and its post-call state. -/
structure ReqOpts where
  method : Option String := none
  path : Option String := none
  qs : Option (List (String × JsValue)) := none
  body : Option JsValue := none
  contentType : Option String := none
  h2method : Option String := none
  h2path : Option String := none
  cookie : Option String := none
  authorization : Option String := none
  requestid : Option String := none
deriving Repr

/-- The `CloudantClient` instance fields read by `request` / written by
`iam` (`src/index.js`, constructor).  The cookie jar (`src/cookie.js`,
outside `src/`) is kept abstract as its `getCookieString` lookup. -/
structure ClientState where
  url : String
  jar : String → String
  accessToken : Option String := none
  accessTokenExpiration : Int := 0
  requestId : Nat := 1
  uuid : String := ""

/-- Response headers as delivered by the HTTP/2 `'response'` event:
`':status'`, `'content-type'` and `'set-cookie'` are the keys the source
reads; other headers are carried opaquely. -/
structure ResponseHeaders where
  status : Nat
  contentType : Option String := none
  setCookie : List String := []
  rest : List (String × String) := []
deriving Repr

/-- The `retval` object `\x7bstatusCode, headers, data\x7d` built by the
`'end'` handler of `CloudantClient.request` (`src/index.js` 250–254). -/
structure ExchangeResult where
  statusCode : Nat
  headers : ResponseHeaders
  data : JsValue
deriving Repr

/-- The settlement of the promise returned by `request`: `resolve` or
`reject`, each carrying its value. -/
inductive Outcome (α : Type) where
  | resolve (v : α) : Outcome α
  | reject (v : α) : Outcome α
deriving Repr

/-- Payload of a rejection from `request`: either the classified
`ExchangeResult` (status ≥ 400) or a stream error object (`'error'`
event). -/
inductive RejectVal where
  | result (r : ExchangeResult) : RejectVal
  | streamErr (e : String) : RejectVal
deriving Repr

/-- One element of a `Promise.allSettled` result array. -/
inductive Settled (ε α : Type) where
  | fulfilled (v : α) : Settled ε α
  | rejected (e : ε) : Settled ε α
deriving Repr

/-- What the wire produces for one issued HTTP/2 stream: a response
(headers plus accumulated UTF-8 body text) or a stream-level error. -/
inductive WireResponse where
  | response (h : ResponseHeaders) (bodyText : String) : WireResponse
  | streamError (e : String) : WireResponse

namespace CloudantClient

open constants

/-- Body value written to the stream by `request` (`src/index.js`
196–205 and 217–220): a truthy `opts.body` of object type is
`JSON.stringify`-ed, any other truthy value is written as-is; a falsy or
absent body writes nothing. -/
def indexBodyWritten : Option JsValue → Option JsValue
  | none => none
  | some b =>
      if jsTruthy b then
        some (if jsTypeofObject b then JsValue.str (jsonStringify b) else b)
      else none

/-- Lines 163–166 of `src/index.js`: a truthy `method` moves into
`':method'`, uppercased, and the `method` key is deleted. -/
def stepMethod (opts : ReqOpts) : ReqOpts :=
  if truthyStr opts.method then
    { opts with h2method := some (jsToUpperCase (opts.method.getD "")), method := none }
  else opts

/-- Lines 167–170: a truthy `path` moves into `':path'` and the `path`
key is deleted. -/
def stepPath (opts : ReqOpts) : ReqOpts :=
  if truthyStr opts.path then { opts with h2path := opts.path, path := none }
  else opts

/-- Lines 171–173: default the method to `GET`. -/
def stepDefaultMethod (opts : ReqOpts) : ReqOpts :=
  if ¬ truthyStr opts.h2method then { opts with h2method := some HTTP_GET } else opts

/-- Lines 174–176: default the path to `/`. -/
def stepDefaultPath (opts : ReqOpts) : ReqOpts :=
  if ¬ truthyStr opts.h2path then { opts with h2path := some DEFAULT_PATH } else opts

/-- Lines 177–179: default the content-type to `application/json`. -/
def stepDefaultCT (opts : ReqOpts) : ReqOpts :=
  if ¬ truthyStr opts.contentType then { opts with contentType := some MIME_JSON }
  else opts

/-- Lines 180–183: cookie jar lookup keyed by base url + path (the query
string is appended only afterwards); a non-empty result is attached. -/
def stepCookie (st : ClientState) (opts : ReqOpts) : ReqOpts :=
  let cookieStr := st.jar (st.url ++ opts.h2path.getD "")
  if cookieStr ≠ "" then { opts with cookie := some cookieStr } else opts

/-- Lines 186–189: append the query string to `':path'`, delete `qs`. -/
def stepQs (opts : ReqOpts) : ReqOpts :=
  match opts.qs with
  | some q =>
      { opts with h2path := some (opts.h2path.getD "" ++ "?" ++ querystringStringify q),
                  qs := none }
  | none => opts

/-- Lines 192–194: attach `Bearer` authorization whenever
`this.accessToken` is truthy (no expiration check appears here). -/
def stepAuth (st : ClientState) (opts : ReqOpts) : ReqOpts :=
  if truthyStr st.accessToken then
    { opts with authorization := some ("Bearer " ++ st.accessToken.getD "") }
  else opts

/-- Lines 196–205: a truthy `body` key is deleted after serialization. -/
def stepBodyDelete (opts : ReqOpts) : ReqOpts :=
  match opts.body with
  | some b => if jsTruthy b then { opts with body := none } else opts
  | none => opts

/-- Lines 207–209: the tracking request-id header. -/
def stepRequestId (st : ClientState) (opts : ReqOpts) : ReqOpts :=
  { opts with requestid := some (st.uuid ++ toString st.requestId) }

/-- Normalization phase of `CloudantClient.request` (`src/index.js`
160–212), performed synchronously on the caller's `opts` object before
the stream is opened.  Returns the mutated `opts` (the caller's object —
JS passes it by reference) and the body value to be written. -/
def normalize (st : ClientState) (opts0 : ReqOpts) : ReqOpts × Option JsValue :=
  let opts8 :=
    stepAuth st (stepQs (stepCookie st (stepDefaultCT (stepDefaultPath
      (stepDefaultMethod (stepPath (stepMethod opts0)))))))
  let body := indexBodyWritten opts8.body
  (stepRequestId st (stepBodyDelete opts8), body)

/-- The `'end'` handler of `CloudantClient.request` (`src/index.js`
244–260).  `Except.error ()` models the uncaught exception thrown by
`JSON.parse` on a non-JSON body declared `application/json` (line 248 has
no try/catch): the promise then never settles. -/
def requestEndHandler (h : ResponseHeaders) (data : String) :
    Except Unit (Outcome ExchangeResult) :=
  let statusCode := h.status
  if h.contentType = some MIME_JSON then
    match jsonParseOpt data with
    | none => .error ()
    | some v =>
        let retval : ExchangeResult := ⟨statusCode, h, v⟩
        .ok (if statusCode < 400 then .resolve retval else .reject retval)
  else
    let retval : ExchangeResult := ⟨statusCode, h, .str data⟩
    .ok (if statusCode < 400 then .resolve retval else .reject retval)

/-- Settlement of the promise returned by one `request` call: resolved
with the `ExchangeResult`, or rejected with an `ExchangeResult` (status
≥ 400) or a stream error. -/
inductive PromiseResult where
  | resolved (r : ExchangeResult) : PromiseResult
  | rejected (v : RejectVal) : PromiseResult
deriving Repr

/-- One full `request` call against a wire environment `wire` mapping the
issued (normalized) options to what the stream delivers.  Returns the
successor client state (the request-id counter increments, line 212) and
the settlement of the returned promise (`Except.error ()` = the promise
never settles, see `requestEndHandler`). -/
def request1 (st : ClientState) (wire : ReqOpts → WireResponse) (opts : ReqOpts) :
    ClientState × Except Unit PromiseResult :=
  let (opts', _body) := normalize st opts
  let st' := { st with requestId := st.requestId + 1 }
  match wire opts' with
  | .streamError e => (st', .ok (.rejected (.streamErr e)))
  | .response h raw =>
      match requestEndHandler h raw with
      | .error () => (st', .error ())
      | .ok (.resolve r) => (st', .ok (.resolved r))
      | .ok (.reject r) => (st', .ok (.rejected (.result r)))

/-- Settlements of the promises created by `requests` (`src/index.js`
147–149): `optsArr.map((opts) => this.request(opts))`, threading the
client's request-id counter through the synchronous normalizations. -/
def requestSettlements (st : ClientState) (wire : ReqOpts → WireResponse) :
    List ReqOpts → List (Except Unit PromiseResult)
  | [] => []
  | opts :: rest =>
      let (st', r) := request1 st wire opts
      r :: requestSettlements st' wire rest

/-- Model of `Promise.allSettled`: waits for every promise to settle and
delivers one `Settled` per input, in input order; if some promise never
settles, neither does the aggregate. -/
def promiseAllSettled :
    List (Except Unit PromiseResult) → Except Unit (List (Settled RejectVal ExchangeResult))
  | [] => .ok []
  | .error () :: _ => .error ()
  | .ok (.resolved r) :: rest => (promiseAllSettled rest).map (.fulfilled r :: ·)
  | .ok (.rejected v) :: rest => (promiseAllSettled rest).map (.rejected v :: ·)

/-- Model of `CloudantClient.requests` (`src/index.js` 146–151). -/
def requests (st : ClientState) (wire : ReqOpts → WireResponse) (optsArr : List ReqOpts) :
    Except Unit (List (Settled RejectVal ExchangeResult)) :=
  promiseAllSettled (requestSettlements st wire optsArr)

end CloudantClient

namespace IAM

/-- Model of `IAM.jsonParse` (`src/iam.js` 16–22): parse the string as
JSON, or on failure return the input string itself. -/
def jsonParse (s : String) : JsValue :=
  match jsonParseOpt s with
  | some v => v
  | none => .str s

/-- The `'close'` handler of `IAM.request` (`src/iam.js` 56–61): status
≥ 400 rejects with the parsed-or-raw body, otherwise it resolves with
the parsed-or-raw body. -/
def closeOutcome (statusCode : Nat) (response : String) : Outcome JsValue :=
  if 400 ≤ statusCode then .reject (jsonParse response)
  else .resolve (jsonParse response)

/-- The form body `IAM.auth` posts to the identity endpoint
(`src/iam.js` 82–88). -/
def authBody (apiKey : String) : List (String × JsValue) :=
  [("grant_type", .str "urn:ibm:params:oauth:grant-type:apikey"),
   ("apikey", .str apiKey)]

end IAM

/-- Token-exchange success payload consumed by `CloudantClient.iam`
(`src/index.js` 82–86): `access_token`, `expiration`, `expires_in`. -/
structure IamResponse where
  access_token : String
  expiration : Int
  expires_in : Nat
deriving Repr

namespace CloudantClient

/-- The refresh delay computed on `src/index.js` line 86:
`response.expires_in * 1000 - 60000` (one minute before expiry; may be a
negative number). -/
def iamRefreshDelayMs (expiresIn : Nat) : Int :=
  (expiresIn : Int) * 1000 - 60000

/-- Node's documented `setTimeout` delay semantics: a delay below 1 ms
(including every negative value) or above 2^31−1 ms is replaced by 1 ms,
so the callback fires on the next timer tick — immediately. -/
def setTimeoutEffectiveDelay (d : Int) : Int :=
  if d < 1 ∨ 2147483647 < d then 1 else d

/-- Model of `CloudantClient.iam` (`src/index.js` 80–91) as a state
transformer.  `authResult` is the settlement of `iamClient.auth(apiKey)`;
on rejection the `await` rethrows before any assignment runs.  The third
component is the delay handed to `setTimeout` when a refresh was
scheduled (`none` = no timer armed). -/
def iamRun (st : ClientState) (authResult : Except JsValue IamResponse)
    (autoRefresh : Bool) : Except JsValue Unit × ClientState × Option Int :=
  match authResult with
  | .error e => (.error e, st, none)
  | .ok r =>
      let st' := { st with accessToken := some r.access_token,
                           accessTokenExpiration := r.expiration }
      if autoRefresh then (.ok (), st', some (iamRefreshDelayMs r.expires_in))
      else (.ok (), st', none)

end CloudantClient

namespace HttpClient

open constants

/-- Body string built by `HttpClient.request` (`src/httpclient.js`
44–51) together with the guard on line 81 (`if (body)`): only a truthy
body of object type produces bytes — JSON-serialized under the JSON
content-type, form-encoded under the form content-type, nothing
otherwise; in particular a string body is never written. -/
def bodyWritten (contentType : String) (optsBody : Option JsValue) : Option String :=
  let body :=
    match optsBody with
    | some b =>
        if jsTruthy b ∧ jsTypeofObject b then
          if contentType = MIME_JSON then jsonStringify b
          else if contentType = MIME_FORM_ENCODED then
            querystringStringify
              (match b with
               | .obj kvs => kvs
               | .arr xs => xs.enum.map (fun iv => (toString iv.1, iv.2))
               | _ => [])
          else ""
        else ""
    | none => ""
  if body ≠ "" then some body else none

end HttpClient

namespace CloudantClient

/-- Does a JS string match the regex `/^\//`, i.e. start with a slash? -/
def startsSlash (p : String) : Bool :=
  p.data.head? = some '/'

/-- Result of `p.replace(/\/$/, '')`: one trailing slash (if any) is
removed — the regex matches only the single final character. -/
def stripEndSlash (p : String) : String :=
  if p.data.reverse.head? = some '/' then ⟨p.data.reverse.tail.reverse⟩ else p

/-- Does the string end in (at least) two slashes?  The one situation in
which `combinePaths`' single-slash strip leaves a trailing slash. -/
def endsTwoSlash (p : String) : Bool :=
  p.data.reverse.head? = some '/' ∧ p.data.reverse.tail.head? = some '/'

/-- Ensure a leading slash, as both halves of `combinePaths` do. -/
def ensureStartSlash (p : String) : String :=
  if startsSlash p then p else "/" ++ p

/-- Model of `CloudantClient.combinePaths` (`src/index.js` 275–288):
give `p1` a leading slash, drop a single trailing slash from it, give a
truthy `p2` a leading slash, and concatenate. -/
def combinePaths (p1 p2 : String) : String :=
  let p1a := stripEndSlash (ensureStartSlash p1)
  let p2a := if p2 ≠ "" then ensureStartSlash p2 else p2
  p1a ++ p2a

example : combinePaths "/mydb" "/_all_docs" = "/mydb/_all_docs" := by rfl
example : combinePaths "mydb/" "x" = "/mydb/x" := by rfl

/-- The path installed by the `db(dbName)` helper's `request` wrapper
(`src/index.js` 298–305): a truthy `opts.path` is combined with
`'/' + encodeURIComponent(dbName)`, otherwise the root alone is used. -/
def dbRequestPath (dbName : String) (optsPath : Option String) : String :=
  let root := "/" ++ encodeURIComponent dbName
  match optsPath with
  | some p => if p ≠ "" then combinePaths root p else root
  | none => root

end CloudantClient

section DemoDefs

open CloudantClient constants

/-- The `':path'` value at the time of the cookie-jar lookup
(`src/index.js` line 180): the caller's truthy `path`, else a caller
pseudo-header `':path'`, else the default `/` — the query string is not
yet appended. -/
def normalizedBasePath (o : ReqOpts) : String :=
  if truthyStr o.path then o.path.getD ""
  else if truthyStr o.h2path then o.h2path.getD "" else DEFAULT_PATH

/-- Demo client state for the fan-out scenario. -/
def fanoutSt : ClientState := ⟨"http://h", fun _ => "", none, 0, 1, "u"⟩

/-- Demo wire: `/bad` answers 404, `/a` and `/b` answer 200. -/
def fanoutWire : ReqOpts → WireResponse := fun o =>
  if o.h2path = some "/bad" then .response ⟨404, some "text/plain", [], []⟩ "nope"
  else if o.h2path = some "/b" then .response ⟨200, some "text/plain", [], []⟩ "B"
  else .response ⟨200, some "text/plain", [], []⟩ "A"

/-- Demo input array `[/a, /bad, /b]`. -/
def fanoutOpts : List ReqOpts :=
  [{ path := some "/a" }, { path := some "/bad" }, { path := some "/b" }]

/-- The settled array the demo produces. -/
def fanoutExpected : List (Settled RejectVal ExchangeResult) :=
  [.fulfilled ⟨200, ⟨200, some "text/plain", [], []⟩, .str "A"⟩,
   .rejected (.result ⟨404, ⟨404, some "text/plain", [], []⟩, .str "nope"⟩),
   .fulfilled ⟨200, ⟨200, some "text/plain", [], []⟩, .str "B"⟩]

example : requests fanoutSt fanoutWire fanoutOpts = Except.ok fanoutExpected := by rfl

end DemoDefs

section StepLemmas

open CloudantClient

/-- Truthiness of an optional JS value (absent = `undefined` = falsy). -/
def jsTruthyOpt : Option JsValue → Bool
  | none => false
  | some b => jsTruthy b

@[simp] lemma stepMethod_path (o : ReqOpts) : (stepMethod o).path = o.path := by
  unfold stepMethod; split <;> rfl

@[simp] lemma stepMethod_qs (o : ReqOpts) : (stepMethod o).qs = o.qs := by
  unfold stepMethod; split <;> rfl

@[simp] lemma stepMethod_body (o : ReqOpts) : (stepMethod o).body = o.body := by
  unfold stepMethod; split <;> rfl

@[simp] lemma stepMethod_h2path (o : ReqOpts) : (stepMethod o).h2path = o.h2path := by
  unfold stepMethod; split <;> rfl

@[simp] lemma stepMethod_cookie (o : ReqOpts) : (stepMethod o).cookie = o.cookie := by
  unfold stepMethod; split <;> rfl

@[simp] lemma stepMethod_auth (o : ReqOpts) :
    (stepMethod o).authorization = o.authorization := by
  unfold stepMethod; split <;> rfl

@[simp] lemma stepMethod_ct (o : ReqOpts) :
    (stepMethod o).contentType = o.contentType := by
  unfold stepMethod; split <;> rfl

@[simp] lemma stepMethod_method_falsy (o : ReqOpts) :
    truthyStr (stepMethod o).method = false := by
  unfold stepMethod; split
  · rfl
  · rename_i h; simpa using h

@[simp] lemma stepPath_method (o : ReqOpts) : (stepPath o).method = o.method := by
  unfold stepPath; split <;> rfl

@[simp] lemma stepPath_qs (o : ReqOpts) : (stepPath o).qs = o.qs := by
  unfold stepPath; split <;> rfl

@[simp] lemma stepPath_body (o : ReqOpts) : (stepPath o).body = o.body := by
  unfold stepPath; split <;> rfl

@[simp] lemma stepPath_h2method (o : ReqOpts) : (stepPath o).h2method = o.h2method := by
  unfold stepPath; split <;> rfl

@[simp] lemma stepPath_cookie (o : ReqOpts) : (stepPath o).cookie = o.cookie := by
  unfold stepPath; split <;> rfl

@[simp] lemma stepPath_auth (o : ReqOpts) :
    (stepPath o).authorization = o.authorization := by
  unfold stepPath; split <;> rfl

@[simp] lemma stepPath_ct (o : ReqOpts) : (stepPath o).contentType = o.contentType := by
  unfold stepPath; split <;> rfl

@[simp] lemma stepPath_path_falsy (o : ReqOpts) :
    truthyStr (stepPath o).path = false := by
  unfold stepPath; split
  · rfl
  · rename_i h; simpa using h

@[simp] lemma stepDefaultMethod_method (o : ReqOpts) :
    (stepDefaultMethod o).method = o.method := by
  unfold stepDefaultMethod; split <;> rfl

@[simp] lemma stepDefaultMethod_path (o : ReqOpts) :
    (stepDefaultMethod o).path = o.path := by
  unfold stepDefaultMethod; split <;> rfl

@[simp] lemma stepDefaultMethod_qs (o : ReqOpts) : (stepDefaultMethod o).qs = o.qs := by
  unfold stepDefaultMethod; split <;> rfl

@[simp] lemma stepDefaultMethod_body (o : ReqOpts) :
    (stepDefaultMethod o).body = o.body := by
  unfold stepDefaultMethod; split <;> rfl

@[simp] lemma stepDefaultMethod_h2path (o : ReqOpts) :
    (stepDefaultMethod o).h2path = o.h2path := by
  unfold stepDefaultMethod; split <;> rfl

@[simp] lemma stepDefaultMethod_cookie (o : ReqOpts) :
    (stepDefaultMethod o).cookie = o.cookie := by
  unfold stepDefaultMethod; split <;> rfl

@[simp] lemma stepDefaultMethod_auth (o : ReqOpts) :
    (stepDefaultMethod o).authorization = o.authorization := by
  unfold stepDefaultMethod; split <;> rfl

@[simp] lemma stepDefaultMethod_ct (o : ReqOpts) :
    (stepDefaultMethod o).contentType = o.contentType := by
  unfold stepDefaultMethod; split <;> rfl

@[simp] lemma stepDefaultMethod_h2method_truthy (o : ReqOpts) :
    truthyStr (stepDefaultMethod o).h2method = true := by
  unfold stepDefaultMethod; split
  · rfl
  · rename_i h; simpa using h

@[simp] lemma stepDefaultPath_method (o : ReqOpts) :
    (stepDefaultPath o).method = o.method := by
  unfold stepDefaultPath; split <;> rfl

@[simp] lemma stepDefaultPath_path (o : ReqOpts) : (stepDefaultPath o).path = o.path := by
  unfold stepDefaultPath; split <;> rfl

@[simp] lemma stepDefaultPath_qs (o : ReqOpts) : (stepDefaultPath o).qs = o.qs := by
  unfold stepDefaultPath; split <;> rfl

@[simp] lemma stepDefaultPath_body (o : ReqOpts) : (stepDefaultPath o).body = o.body := by
  unfold stepDefaultPath; split <;> rfl

@[simp] lemma stepDefaultPath_h2method (o : ReqOpts) :
    (stepDefaultPath o).h2method = o.h2method := by
  unfold stepDefaultPath; split <;> rfl

@[simp] lemma stepDefaultPath_cookie (o : ReqOpts) :
    (stepDefaultPath o).cookie = o.cookie := by
  unfold stepDefaultPath; split <;> rfl

@[simp] lemma stepDefaultPath_auth (o : ReqOpts) :
    (stepDefaultPath o).authorization = o.authorization := by
  unfold stepDefaultPath; split <;> rfl

@[simp] lemma stepDefaultPath_ct (o : ReqOpts) :
    (stepDefaultPath o).contentType = o.contentType := by
  unfold stepDefaultPath; split <;> rfl

@[simp] lemma stepDefaultPath_h2path_truthy (o : ReqOpts) :
    truthyStr (stepDefaultPath o).h2path = true := by
  unfold stepDefaultPath; split
  · rfl
  · rename_i h; simpa using h

@[simp] lemma stepDefaultCT_method (o : ReqOpts) : (stepDefaultCT o).method = o.method := by
  unfold stepDefaultCT; split <;> rfl

@[simp] lemma stepDefaultCT_path (o : ReqOpts) : (stepDefaultCT o).path = o.path := by
  unfold stepDefaultCT; split <;> rfl

@[simp] lemma stepDefaultCT_qs (o : ReqOpts) : (stepDefaultCT o).qs = o.qs := by
  unfold stepDefaultCT; split <;> rfl

@[simp] lemma stepDefaultCT_body (o : ReqOpts) : (stepDefaultCT o).body = o.body := by
  unfold stepDefaultCT; split <;> rfl

@[simp] lemma stepDefaultCT_h2method (o : ReqOpts) :
    (stepDefaultCT o).h2method = o.h2method := by
  unfold stepDefaultCT; split <;> rfl

@[simp] lemma stepDefaultCT_h2path (o : ReqOpts) :
    (stepDefaultCT o).h2path = o.h2path := by
  unfold stepDefaultCT; split <;> rfl

@[simp] lemma stepDefaultCT_cookie (o : ReqOpts) : (stepDefaultCT o).cookie = o.cookie := by
  unfold stepDefaultCT; split <;> rfl

@[simp] lemma stepDefaultCT_auth (o : ReqOpts) :
    (stepDefaultCT o).authorization = o.authorization := by
  unfold stepDefaultCT; split <;> rfl

@[simp] lemma stepCookie_method (st : ClientState) (o : ReqOpts) :
    (stepCookie st o).method = o.method := by
  unfold stepCookie; dsimp only; split <;> rfl

@[simp] lemma stepCookie_path (st : ClientState) (o : ReqOpts) :
    (stepCookie st o).path = o.path := by
  unfold stepCookie; dsimp only; split <;> rfl

@[simp] lemma stepCookie_qs (st : ClientState) (o : ReqOpts) :
    (stepCookie st o).qs = o.qs := by
  unfold stepCookie; dsimp only; split <;> rfl

@[simp] lemma stepCookie_body (st : ClientState) (o : ReqOpts) :
    (stepCookie st o).body = o.body := by
  unfold stepCookie; dsimp only; split <;> rfl

@[simp] lemma stepCookie_h2method (st : ClientState) (o : ReqOpts) :
    (stepCookie st o).h2method = o.h2method := by
  unfold stepCookie; dsimp only; split <;> rfl

@[simp] lemma stepCookie_h2path (st : ClientState) (o : ReqOpts) :
    (stepCookie st o).h2path = o.h2path := by
  unfold stepCookie; dsimp only; split <;> rfl

@[simp] lemma stepCookie_auth (st : ClientState) (o : ReqOpts) :
    (stepCookie st o).authorization = o.authorization := by
  unfold stepCookie; dsimp only; split <;> rfl

@[simp] lemma stepQs_method (o : ReqOpts) : (stepQs o).method = o.method := by
  unfold stepQs; split <;> rfl

@[simp] lemma stepQs_path (o : ReqOpts) : (stepQs o).path = o.path := by
  unfold stepQs; split <;> rfl

@[simp] lemma stepQs_body (o : ReqOpts) : (stepQs o).body = o.body := by
  unfold stepQs; split <;> rfl

@[simp] lemma stepQs_h2method (o : ReqOpts) : (stepQs o).h2method = o.h2method := by
  unfold stepQs; split <;> rfl

@[simp] lemma stepQs_cookie (o : ReqOpts) : (stepQs o).cookie = o.cookie := by
  unfold stepQs; split <;> rfl

@[simp] lemma stepQs_auth (o : ReqOpts) : (stepQs o).authorization = o.authorization := by
  unfold stepQs; split <;> rfl

@[simp] lemma stepQs_qs_none (o : ReqOpts) : (stepQs o).qs = none := by
  unfold stepQs; split
  · rfl
  · rename_i heq; rw [heq]

@[simp] lemma stepAuth_method (st : ClientState) (o : ReqOpts) :
    (stepAuth st o).method = o.method := by
  unfold stepAuth; split <;> rfl

@[simp] lemma stepAuth_path (st : ClientState) (o : ReqOpts) :
    (stepAuth st o).path = o.path := by
  unfold stepAuth; split <;> rfl

@[simp] lemma stepAuth_qs (st : ClientState) (o : ReqOpts) :
    (stepAuth st o).qs = o.qs := by
  unfold stepAuth; split <;> rfl

@[simp] lemma stepAuth_body (st : ClientState) (o : ReqOpts) :
    (stepAuth st o).body = o.body := by
  unfold stepAuth; split <;> rfl

@[simp] lemma stepAuth_h2method (st : ClientState) (o : ReqOpts) :
    (stepAuth st o).h2method = o.h2method := by
  unfold stepAuth; split <;> rfl

@[simp] lemma stepAuth_h2path (st : ClientState) (o : ReqOpts) :
    (stepAuth st o).h2path = o.h2path := by
  unfold stepAuth; split <;> rfl

@[simp] lemma stepAuth_cookie (st : ClientState) (o : ReqOpts) :
    (stepAuth st o).cookie = o.cookie := by
  unfold stepAuth; split <;> rfl

@[simp] lemma stepBodyDelete_method (o : ReqOpts) :
    (stepBodyDelete o).method = o.method := by
  unfold stepBodyDelete; rcases o.body with _ | b
  · rfl
  · dsimp only; split <;> rfl

@[simp] lemma stepBodyDelete_path (o : ReqOpts) : (stepBodyDelete o).path = o.path := by
  unfold stepBodyDelete; rcases o.body with _ | b
  · rfl
  · dsimp only; split <;> rfl

@[simp] lemma stepBodyDelete_qs (o : ReqOpts) : (stepBodyDelete o).qs = o.qs := by
  unfold stepBodyDelete; rcases o.body with _ | b
  · rfl
  · dsimp only; split <;> rfl

@[simp] lemma stepBodyDelete_h2method (o : ReqOpts) :
    (stepBodyDelete o).h2method = o.h2method := by
  unfold stepBodyDelete; rcases o.body with _ | b
  · rfl
  · dsimp only; split <;> rfl

@[simp] lemma stepBodyDelete_h2path (o : ReqOpts) :
    (stepBodyDelete o).h2path = o.h2path := by
  unfold stepBodyDelete; rcases o.body with _ | b
  · rfl
  · dsimp only; split <;> rfl

@[simp] lemma stepBodyDelete_cookie (o : ReqOpts) :
    (stepBodyDelete o).cookie = o.cookie := by
  unfold stepBodyDelete; rcases o.body with _ | b
  · rfl
  · dsimp only; split <;> rfl

@[simp] lemma stepBodyDelete_auth (o : ReqOpts) :
    (stepBodyDelete o).authorization = o.authorization := by
  unfold stepBodyDelete; rcases o.body with _ | b
  · rfl
  · dsimp only; split <;> rfl

@[simp] lemma stepRequestId_method (st : ClientState) (o : ReqOpts) :
    (stepRequestId st o).method = o.method := rfl

@[simp] lemma stepRequestId_path (st : ClientState) (o : ReqOpts) :
    (stepRequestId st o).path = o.path := rfl

@[simp] lemma stepRequestId_qs (st : ClientState) (o : ReqOpts) :
    (stepRequestId st o).qs = o.qs := rfl

@[simp] lemma stepRequestId_body (st : ClientState) (o : ReqOpts) :
    (stepRequestId st o).body = o.body := rfl

@[simp] lemma stepRequestId_h2method (st : ClientState) (o : ReqOpts) :
    (stepRequestId st o).h2method = o.h2method := rfl

@[simp] lemma stepRequestId_h2path (st : ClientState) (o : ReqOpts) :
    (stepRequestId st o).h2path = o.h2path := rfl

@[simp] lemma stepRequestId_cookie (st : ClientState) (o : ReqOpts) :
    (stepRequestId st o).cookie = o.cookie := rfl

@[simp] lemma stepRequestId_auth (st : ClientState) (o : ReqOpts) :
    (stepRequestId st o).authorization = o.authorization := rfl

end StepLemmas


section Claims

open CloudantClient constants

/-- C1: for every completed exchange issued via `Client.request`, a status
code < 400 resolves the promise and ≥ 400 rejects it, and in both cases
the delivered value is the same `\x7bstatusCode, headers, data\x7d` object
built from the response: statusCode is the response status, headers the
response headers, and data the parsed body under a JSON content-type or
the raw text otherwise. -/
theorem request_classifies_by_status (h : ResponseHeaders) (data : String)
    (o : Outcome ExchangeResult)
    (hok : requestEndHandler h data = Except.ok o) :
    ∃ r : ExchangeResult,
      r.statusCode = h.status ∧ r.headers = h ∧
      (h.status < 400 → o = .resolve r) ∧
      (400 ≤ h.status → o = .reject r) ∧
      (h.contentType = some MIME_JSON → jsonParseOpt data = some r.data) ∧
      (h.contentType ≠ some MIME_JSON → r.data = .str data) := by
  unfold requestEndHandler at hok
  split at hok
  · rename_i hct
    cases hp : jsonParseOpt data with
    | none => rw [hp] at hok; exact absurd hok (by simp)
    | some v =>
        rw [hp] at hok
        simp only [Except.ok.injEq] at hok
        refine ⟨⟨h.status, h, v⟩, rfl, rfl, ?_, ?_, fun _ => rfl, fun hc => absurd hct hc⟩
        · intro hlt; rw [← hok, if_pos hlt]
        · intro hge; rw [← hok, if_neg (by omega)]
  · rename_i hct
    simp only [Except.ok.injEq] at hok
    refine ⟨⟨h.status, h, .str data⟩, rfl, rfl, ?_, ?_, fun hc => absurd hc hct, fun _ => rfl⟩
    · intro hlt; rw [← hok, if_pos hlt]
    · intro hge; rw [← hok, if_neg (by omega)]

/-- Witness for C1 at a concrete completed exchange: a 200 `text/plain`
response resolves with `\x7b200, headers, raw text\x7d`. -/
theorem request_classifies_by_status_witness :
    ∃ r : ExchangeResult,
      r.statusCode = (⟨200, some "text/plain", [], []⟩ : ResponseHeaders).status ∧
      r.headers = (⟨200, some "text/plain", [], []⟩ : ResponseHeaders) ∧
      ((⟨200, some "text/plain", [], []⟩ : ResponseHeaders).status < 400 →
        (Outcome.resolve (⟨200, ⟨200, some "text/plain", [], []⟩, .str "ok"⟩ : ExchangeResult)) = .resolve r) ∧
      (400 ≤ (⟨200, some "text/plain", [], []⟩ : ResponseHeaders).status →
        (Outcome.resolve (⟨200, ⟨200, some "text/plain", [], []⟩, .str "ok"⟩ : ExchangeResult)) = .reject r) ∧
      ((⟨200, some "text/plain", [], []⟩ : ResponseHeaders).contentType = some MIME_JSON →
        jsonParseOpt "ok" = some r.data) ∧
      ((⟨200, some "text/plain", [], []⟩ : ResponseHeaders).contentType ≠ some MIME_JSON →
        r.data = .str "ok") :=
  request_classifies_by_status ⟨200, some "text/plain", [], []⟩ "ok"
    (.resolve ⟨200, ⟨200, some "text/plain", [], []⟩, .str "ok"⟩) rfl

/-- C2 counterexample: a 200 response declared `application/json` whose
body `<html>` is not valid JSON does not complete with the raw text —
`JSON.parse` on line 248 of `src/index.js` has no try/catch, so the
`'end'` handler throws and the promise never settles. -/
theorem request_json_parse_throws_cex :
    requestEndHandler ⟨200, some MIME_JSON, [], []⟩ "<html>" = Except.error () ∧
    requestEndHandler ⟨200, some MIME_JSON, [], []⟩ "<html>" ≠
      Except.ok (Outcome.resolve ⟨200, ⟨200, some MIME_JSON, [], []⟩, JsValue.str "<html>"⟩) := by
  refine ⟨rfl, ?_⟩
  intro hc
  rw [show requestEndHandler ⟨200, some MIME_JSON, [], []⟩ "<html>" = Except.error () from rfl] at hc
  exact Except.noConfusion hc

/-- C2 amended: a JSON-parse failure never fails the IAM token exchange —
`IAM.jsonParse` (`src/iam.js` 16–22) falls back to the raw text, so the
`'close'` handler settles (resolving below 400, rejecting at ≥ 400) with
the raw body string; but in `CloudantClient.request` (`src/index.js`
248) the same situation throws out of the `'end'` handler and the
exchange never delivers a result. -/
theorem json_parse_failure_not_an_iam_error (status : Nat) (s : String)
    (hp : jsonParseOpt s = none) (h : ResponseHeaders)
    (hct : h.contentType = some MIME_JSON) :
    IAM.closeOutcome status s =
      (if 400 ≤ status then Outcome.reject (JsValue.str s)
       else Outcome.resolve (JsValue.str s)) ∧
    requestEndHandler h s = Except.error () := by
  have hj : IAM.jsonParse s = .str s := by unfold IAM.jsonParse; rw [hp]
  constructor
  · unfold IAM.closeOutcome; rw [hj]
  · unfold requestEndHandler
    rw [if_pos hct, hp]

/-- Witness for C2 (amended) at `status = 200`, body `<html>`. -/
theorem json_parse_failure_not_an_iam_error_witness :
    (IAM.closeOutcome 200 "<html>" =
      (if 400 ≤ 200 then Outcome.reject (JsValue.str "<html>")
       else Outcome.resolve (JsValue.str "<html>")) ∧
     requestEndHandler ⟨200, some MIME_JSON, [], []⟩ "<html>" = Except.error ()) :=
  json_parse_failure_not_an_iam_error 200 "<html>" rfl ⟨200, some MIME_JSON, [], []⟩ rfl

/-- C4: a successful `iam(apiKey, true)` exchange with lifetime
`expires_in = E` seconds stores the credential and hands `setTimeout` the
delay `E*1000 − 60000` ms (60 s before expiry; 3540000 ms for E = 3600);
under Node's documented `setTimeout` clamping the effective delay is
never negative — below one minute of lifetime the refresh fires
immediately (1 ms tick). -/
theorem iam_refresh_schedule (st : ClientState) (r : IamResponse) :
    iamRun st (Except.ok r) true =
      (Except.ok (), { st with accessToken := some r.access_token,
                               accessTokenExpiration := r.expiration },
        some (iamRefreshDelayMs r.expires_in)) ∧
    iamRefreshDelayMs r.expires_in = (r.expires_in : Int) * 1000 - 60000 ∧
    1 ≤ setTimeoutEffectiveDelay (iamRefreshDelayMs r.expires_in) ∧
    ((r.expires_in : Int) * 1000 < 60000 →
      setTimeoutEffectiveDelay (iamRefreshDelayMs r.expires_in) = 1) ∧
    iamRefreshDelayMs 3600 = 3540000 := by
  refine ⟨rfl, rfl, ?_, ?_, by decide⟩
  · unfold setTimeoutEffectiveDelay
    split
    · exact le_refl 1
    · rename_i hcond
      unfold iamRefreshDelayMs at hcond ⊢
      omega
  · intro hlt
    unfold setTimeoutEffectiveDelay iamRefreshDelayMs
    rw [if_pos (Or.inl (by omega))]

/-- Witness for C4 at `expires_in = 3600` and at `expires_in = 30`
(lifetime under a minute ⇒ immediate refresh). -/
theorem iam_refresh_schedule_witness :
    iamRefreshDelayMs 3600 = 3540000 ∧
    setTimeoutEffectiveDelay (iamRefreshDelayMs 30) = 1 ∧
    1 ≤ setTimeoutEffectiveDelay (iamRefreshDelayMs 30) :=
  ⟨(iam_refresh_schedule ⟨"https://c", fun _ => "", none, 0, 1, "u"⟩
      ⟨"tok", 0, 3600⟩).2.2.2.2,
   (iam_refresh_schedule ⟨"https://c", fun _ => "", none, 0, 1, "u"⟩
      ⟨"tok", 0, 30⟩).2.2.2.1 (by decide),
   (iam_refresh_schedule ⟨"https://c", fun _ => "", none, 0, 1, "u"⟩
      ⟨"tok", 0, 30⟩).2.2.1⟩

/-- C5: when the identity-token exchange fails — the `'close'` handler of
`IAM.request` rejects every status ≥ 400 (and a transport error rejects
likewise) — the `await` in `CloudantClient.iam` rethrows before any
assignment, so the error propagates, the stored `accessToken` /
`accessTokenExpiration` are untouched, and no refresh timer is armed. -/
theorem iam_failure_preserves_credential (st : ClientState) (e : JsValue)
    (auto : Bool) (status : Nat) (body : String) (hs : 400 ≤ status) :
    iamRun st (Except.error e) auto = (Except.error e, st, none) ∧
    IAM.closeOutcome status body = Outcome.reject (IAM.jsonParse body) := by
  refine ⟨rfl, ?_⟩
  unfold IAM.closeOutcome
  rw [if_pos hs]

/-- Witness for C5: a 401 with body `denied` propagates as the rejection
value and leaves a previously stored credential in place. -/
theorem iam_failure_preserves_credential_witness :
    iamRun ⟨"https://c", fun _ => "", some "old", 99, 1, "u"⟩
        (Except.error (JsValue.str "err")) true =
      (Except.error (JsValue.str "err"),
        ⟨"https://c", fun _ => "", some "old", 99, 1, "u"⟩, none) ∧
    IAM.closeOutcome 401 "denied" = Outcome.reject (IAM.jsonParse "denied") :=
  iam_failure_preserves_credential ⟨"https://c", fun _ => "", some "old", 99, 1, "u"⟩
    (JsValue.str "err") true 401 "denied" (by decide)

end Claims

section ClaimsFanout

open CloudantClient

/-- Helper: when `Promise.allSettled` settles, the output has one element
per input promise, in input order, each determined solely by its own
promise's settlement. -/
lemma promiseAllSettled_ok (ps : List (Except Unit PromiseResult))
    (l : List (Settled RejectVal ExchangeResult))
    (hok : promiseAllSettled ps = Except.ok l) :
    l.length = ps.length ∧
    ∀ i, i < ps.length →
      ∃ pr : PromiseResult,
        ps.getD i (Except.error ()) = Except.ok pr ∧
        ((∃ r, pr = .resolved r ∧
            l.getD i (.rejected (.streamErr "")) = .fulfilled r) ∨
         (∃ v, pr = .rejected v ∧
            l.getD i (.rejected (.streamErr "")) = .rejected v)) := by
  induction ps generalizing l with
  | nil =>
      unfold promiseAllSettled at hok
      simp only [Except.ok.injEq] at hok
      subst hok
      exact ⟨rfl, fun i hi => absurd hi (by simp)⟩
  | cons p rest ih =>
      match p with
      | .error () =>
          exact absurd hok (by unfold promiseAllSettled; simp)
      | .ok (.resolved r) =>
          unfold promiseAllSettled at hok
          cases h2 : promiseAllSettled rest with
          | error e => rw [h2] at hok; exact absurd hok (by simp [Except.map])
          | ok l2 =>
              rw [h2] at hok
              simp only [Except.map, Except.ok.injEq] at hok
              subst hok
              obtain ⟨hlen, hpt⟩ := ih l2 h2
              refine ⟨by simpa using hlen, ?_⟩
              intro i hi
              match i with
              | 0 => exact ⟨.resolved r, rfl, Or.inl ⟨r, rfl, rfl⟩⟩
              | i + 1 =>
                  simp only [List.getD_cons_succ]
                  exact hpt i (by simpa using hi)
      | .ok (.rejected v) =>
          unfold promiseAllSettled at hok
          cases h2 : promiseAllSettled rest with
          | error e => rw [h2] at hok; exact absurd hok (by simp [Except.map])
          | ok l2 =>
              rw [h2] at hok
              simp only [Except.map, Except.ok.injEq] at hok
              subst hok
              obtain ⟨hlen, hpt⟩ := ih l2 h2
              refine ⟨by simpa using hlen, ?_⟩
              intro i hi
              match i with
              | 0 => exact ⟨.rejected v, rfl, Or.inr ⟨v, rfl, rfl⟩⟩
              | i + 1 =>
                  simp only [List.getD_cons_succ]
                  exact hpt i (by simpa using hi)

/-- Helper: one settlement is produced per input request description. -/
lemma requestSettlements_length (st : ClientState) (wire : ReqOpts → WireResponse)
    (optsArr : List ReqOpts) :
    (requestSettlements st wire optsArr).length = optsArr.length := by
  induction optsArr generalizing st with
  | nil => rfl
  | cons o rest ih =>
      unfold requestSettlements
      simp only [List.length_cons]
      rw [ih]

/-- C3: whenever `requests(descs)` delivers (every promise settled), the
result array has exactly `descs.length` elements, in input order; element
`i` is `fulfilled` with the `ExchangeResult` exactly when exchange `i`
resolved and `rejected` with its failure outcome exactly when it
rejected — so one rejecting exchange cannot affect any other element. -/
theorem requests_settles_pointwise (st : ClientState)
    (wire : ReqOpts → WireResponse) (optsArr : List ReqOpts)
    (l : List (Settled RejectVal ExchangeResult))
    (hok : requests st wire optsArr = Except.ok l) :
    l.length = optsArr.length ∧
    ∀ i, i < optsArr.length →
      ∃ pr : PromiseResult,
        (requestSettlements st wire optsArr).getD i (Except.error ()) = Except.ok pr ∧
        ((∃ r, pr = .resolved r ∧
            l.getD i (.rejected (.streamErr "")) = .fulfilled r) ∨
         (∃ v, pr = .rejected v ∧
            l.getD i (.rejected (.streamErr "")) = .rejected v)) := by
  unfold requests at hok
  obtain ⟨hlen, hpt⟩ := promiseAllSettled_ok _ _ hok
  rw [requestSettlements_length] at hlen
  refine ⟨hlen, ?_⟩
  intro i hi
  exact hpt i (by rwa [requestSettlements_length])

end ClaimsFanout

section ClaimsFanoutWitness

open CloudantClient


/-- Witness for C3: on the spec's scenario the array has length 3 and
index 1 (the 404) is the rejection, delivered alongside the others. -/
theorem requests_settles_pointwise_witness :
    fanoutExpected.length = fanoutOpts.length ∧
    (∃ pr : PromiseResult,
      (requestSettlements fanoutSt fanoutWire fanoutOpts).getD 1 (Except.error ()) =
        Except.ok pr ∧
      ((∃ r, pr = .resolved r ∧
          fanoutExpected.getD 1 (.rejected (.streamErr "")) = .fulfilled r) ∨
       (∃ v, pr = .rejected v ∧
          fanoutExpected.getD 1 (.rejected (.streamErr "")) = .rejected v))) :=
  have h := requests_settles_pointwise fanoutSt fanoutWire fanoutOpts fanoutExpected rfl
  ⟨h.1, h.2 1 (by decide)⟩

end ClaimsFanoutWitness

section ClaimsBody

open CloudantClient constants

/-- Helper: the serialization of a JSON object is never the empty string
(it is wrapped in braces). -/
lemma jsonStringify_obj_ne_empty (kvs : List (String × JsValue)) :
    jsonStringify (JsValue.obj kvs) ≠ "" := by
  rw [show jsonStringify (JsValue.obj kvs) =
        "\x7b" ++ jsonStringifyMembers kvs ++ "\x7d" from by simp [jsonStringify]]
  intro h
  have hd := congrArg String.data h
  rw [String.data_append, String.data_append] at hd
  simp at hd

/-- C6 counterexample: normalization in `src/index.js` serializes a
structured body with `JSON.stringify` even when the request's declared
content-type is `application/x-www-form-urlencoded` — the body written
for `\x7ba: 1\x7d` under the form content-type is `\x7b"a":1\x7d`, not
the form encoding `a=1`. -/
theorem index_form_body_not_form_encoded_cex :
    (normalize ⟨"http://h", fun _ => "", none, 0, 1, "u"⟩
        { contentType := some MIME_FORM_ENCODED,
          body := some (.obj [("a", JsValue.num 1)]) }).2 =
      some (JsValue.str "\x7b\"a\":1\x7d") ∧
    querystringStringify [("a", JsValue.num 1)] = "a=1" ∧
    JsValue.str "\x7b\"a\":1\x7d" ≠ JsValue.str "a=1" := by
  refine ⟨rfl, rfl, ?_⟩
  intro hc
  injection hc with h
  exact absurd h (by decide)

/-- C6 amended: in `CloudantClient.request` a structured (object) body is
always JSON-serialized — regardless of the declared content-type — while
a non-empty string body passes through unchanged and an absent body
writes no bytes; the content-type dispatch (JSON-serialize under the
JSON type, form-encode under the form type) lives in
`HttpClient.request`, where a string body is never written at all. -/
theorem body_encoding_amended (kvs : List (String × JsValue)) (s : String)
    (hs : s ≠ "") (ct : String) :
    indexBodyWritten (some (.obj kvs)) = some (.str (jsonStringify (.obj kvs))) ∧
    indexBodyWritten (some (.str s)) = some (.str s) ∧
    indexBodyWritten none = none ∧
    HttpClient.bodyWritten MIME_JSON (some (.obj kvs)) =
      some (jsonStringify (.obj kvs)) ∧
    HttpClient.bodyWritten MIME_FORM_ENCODED (some (.obj kvs)) =
      (if querystringStringify kvs ≠ "" then some (querystringStringify kvs)
       else none) ∧
    HttpClient.bodyWritten ct (some (.str s)) = none := by
  refine ⟨rfl, ?_, rfl, ?_, ?_, ?_⟩
  · simp [indexBodyWritten, jsTruthy, jsTypeofObject, hs]
  · simp [HttpClient.bodyWritten, jsTruthy, jsTypeofObject,
      jsonStringify_obj_ne_empty kvs]
  · unfold HttpClient.bodyWritten
    dsimp only
    rw [if_neg (show ¬ (MIME_FORM_ENCODED = MIME_JSON) from by decide)]
    rw [if_pos (show jsTruthy (JsValue.obj kvs) = true ∧
          jsTypeofObject (JsValue.obj kvs) = true from by constructor <;> rfl)]
    rw [if_pos (show MIME_FORM_ENCODED = MIME_FORM_ENCODED from rfl)]
  · simp [HttpClient.bodyWritten, jsTruthy, jsTypeofObject]

/-- Witness for C6 (amended) at body `\x7ba: 1\x7d`, string body `x`,
content-type `text/plain`. -/
theorem body_encoding_amended_witness :
    indexBodyWritten (some (.obj [("a", JsValue.num 1)])) =
      some (.str (jsonStringify (.obj [("a", JsValue.num 1)]))) ∧
    indexBodyWritten (some (.str "x")) = some (.str "x") ∧
    indexBodyWritten none = none ∧
    HttpClient.bodyWritten MIME_JSON (some (.obj [("a", JsValue.num 1)])) =
      some (jsonStringify (.obj [("a", JsValue.num 1)])) ∧
    HttpClient.bodyWritten MIME_FORM_ENCODED (some (.obj [("a", JsValue.num 1)])) =
      (if querystringStringify [("a", JsValue.num 1)] ≠ ""
       then some (querystringStringify [("a", JsValue.num 1)]) else none) ∧
    HttpClient.bodyWritten "text/plain" (some (.str "x")) = none :=
  body_encoding_amended [("a", JsValue.num 1)] "x" (by decide) "text/plain"

end ClaimsBody

section ClaimsAuth

open CloudantClient constants


/-- Helper: after the content-type default the field is always truthy. -/
@[simp] lemma stepDefaultCT_ct_truthy (o : ReqOpts) :
    truthyStr (stepDefaultCT o).contentType = true := by
  unfold stepDefaultCT
  split
  · rfl
  · rename_i h; simpa using h

/-- Helper: after the method/path moves and defaults, `':path'` holds
exactly the normalized base path. -/
lemma basePath_after_defaults (o : ReqOpts) :
    (stepDefaultPath (stepDefaultMethod (stepPath (stepMethod o)))).h2path =
      some (normalizedBasePath o) := by
  unfold normalizedBasePath
  by_cases t1 : truthyStr o.path = true
  · have hsp : (stepPath (stepMethod o)).h2path = o.path := by
      unfold stepPath
      rw [if_pos (by rw [stepMethod_path]; exact t1)]
      simp
    have hX : (stepDefaultMethod (stepPath (stepMethod o))).h2path = o.path := by
      rw [stepDefaultMethod_h2path, hsp]
    unfold stepDefaultPath
    rw [if_neg (by rw [hX]; exact not_not_intro t1)]
    rw [hX, if_pos t1]
    cases hp : o.path with
    | none => rw [hp] at t1; exact absurd t1 (by simp [truthyStr])
    | some p => simp
  · have hsp : (stepPath (stepMethod o)).h2path = o.h2path := by
      unfold stepPath
      rw [if_neg (by rw [stepMethod_path]; exact t1), stepMethod_h2path]
    have hX : (stepDefaultMethod (stepPath (stepMethod o))).h2path = o.h2path := by
      rw [stepDefaultMethod_h2path, hsp]
    rw [if_neg t1]
    by_cases t2 : truthyStr o.h2path = true
    · unfold stepDefaultPath
      rw [if_neg (by rw [hX]; exact not_not_intro t2)]
      rw [hX, if_pos t2]
      cases hp : o.h2path with
      | none => rw [hp] at t2; exact absurd t2 (by simp [truthyStr])
      | some p => simp
    · unfold stepDefaultPath
      rw [if_pos (by rw [hX]; simpa using t2)]
      rw [if_neg t2]

/-- C7 counterexample: `request` attaches the bearer token whenever
`this.accessToken` is truthy — there is no expiry check on lines
192–194.  With a stored expiration of epoch-second 0, at any later
observation instant (e.g. 1000) the token is expired, yet normalization
still attaches `Authorization: Bearer tok`. -/
theorem bearer_attached_when_expired_cex :
    ((CloudantClient.normalize ⟨"http://h", fun _ => "", some "tok", 0, 1, "u"⟩ {}).1.authorization =
      some "Bearer tok") ∧
    ((⟨"http://h", fun _ => "", some "tok", 0, 1, "u"⟩ : ClientState).accessTokenExpiration
      < 1000) := by
  exact ⟨rfl, by decide⟩

/-- C7 amended: the `Bearer` header is attached iff a token string is
currently held (truthy `accessToken`) — irrespective of its expiration —
and the cookie header is attached iff the jar returns a non-empty value
for base URL + normalized (pre-query) path; the two conditions are
independent, so both headers can be attached together. -/
theorem bearer_and_cookie_attachment (st : ClientState) (o : ReqOpts)
    (ha : o.authorization = none) (hc : o.cookie = none) :
    ((CloudantClient.normalize st o).1.authorization =
      if truthyStr st.accessToken then some ("Bearer " ++ st.accessToken.getD "")
      else none) ∧
    ((CloudantClient.normalize st o).1.cookie =
      if st.jar (st.url ++ normalizedBasePath o) ≠ ""
      then some (st.jar (st.url ++ normalizedBasePath o)) else none) := by
  unfold CloudantClient.normalize
  constructor
  · simp only [stepRequestId_auth, stepBodyDelete_auth]
    unfold stepAuth
    split
    · rfl
    · simp only [stepQs_auth, stepCookie_auth, stepDefaultCT_auth, stepDefaultPath_auth,
        stepDefaultMethod_auth, stepPath_auth, stepMethod_auth]
      exact ha
  · simp only [stepRequestId_cookie, stepBodyDelete_cookie, stepAuth_cookie, stepQs_cookie]
    have hbp : (stepDefaultCT (stepDefaultPath (stepDefaultMethod (stepPath
        (stepMethod o))))).h2path = some (normalizedBasePath o) := by
      rw [stepDefaultCT_h2path, basePath_after_defaults]
    unfold stepCookie
    dsimp only
    rw [hbp]
    simp only [Option.getD_some]
    split
    · rfl
    · simp only [stepDefaultCT_cookie, stepDefaultPath_cookie, stepDefaultMethod_cookie,
        stepPath_cookie, stepMethod_cookie]
      exact hc

/-- Witness for C7 (amended): with a held token and a jar holding a
session cookie for `http://h/`, both headers are attached to the same
request. -/
theorem bearer_and_cookie_attachment_witness :
    ((CloudantClient.normalize ⟨"http://h", fun _ => "AuthSession=abc", some "tok", 0, 1, "u"⟩ {}).1.authorization =
      if truthyStr (some "tok") then some ("Bearer " ++ (some "tok" : Option String).getD "")
      else none) ∧
    ((CloudantClient.normalize ⟨"http://h", fun _ => "AuthSession=abc", some "tok", 0, 1, "u"⟩ {}).1.cookie =
      if (fun (_ : String) => "AuthSession=abc") ("http://h" ++ normalizedBasePath {}) ≠ ""
      then some ((fun (_ : String) => "AuthSession=abc") ("http://h" ++ normalizedBasePath {}))
      else none) :=
  bearer_and_cookie_attachment ⟨"http://h", fun _ => "AuthSession=abc", some "tok", 0, 1, "u"⟩
    {} rfl rfl

/-- Helper: uppercasing preserves non-emptiness. -/
lemma jsToUpperCase_ne_empty (s : String) (h : s ≠ "") : jsToUpperCase s ≠ "" := by
  intro hc
  have hd : s.data.map jsToUpperChar = [] := congrArg String.data hc
  rw [List.map_eq_nil_iff] at hd
  exact h (String.ext hd)

/-- C8 counterexample: `request` mutates the caller's description object
in place — after the call the object passed for
`\x7bmethod: "get", path: "/a", qs: \x7blimit: 5\x7d, body: \x7ba: 1\x7d\x7d`
no longer holds any of those fields; they are deleted and replaced by
the wire form (`':method'`, `':path'` with the query appended, no body). -/
theorem request_mutates_caller_opts_cex :
    ((CloudantClient.normalize ⟨"http://h", fun _ => "", none, 0, 1, "u"⟩
        { method := some "get", path := some "/a",
          qs := some [("limit", JsValue.num 5)],
          body := some (.obj [("a", JsValue.num 1)]) }).1.method = none) ∧
    ((CloudantClient.normalize ⟨"http://h", fun _ => "", none, 0, 1, "u"⟩
        { method := some "get", path := some "/a",
          qs := some [("limit", JsValue.num 5)],
          body := some (.obj [("a", JsValue.num 1)]) }).1.method ≠ some "get") ∧
    ((CloudantClient.normalize ⟨"http://h", fun _ => "", none, 0, 1, "u"⟩
        { method := some "get", path := some "/a",
          qs := some [("limit", JsValue.num 5)],
          body := some (.obj [("a", JsValue.num 1)]) }).1.qs = none) ∧
    ((CloudantClient.normalize ⟨"http://h", fun _ => "", none, 0, 1, "u"⟩
        { method := some "get", path := some "/a",
          qs := some [("limit", JsValue.num 5)],
          body := some (.obj [("a", JsValue.num 1)]) }).1.body = none) ∧
    ((CloudantClient.normalize ⟨"http://h", fun _ => "", none, 0, 1, "u"⟩
        { method := some "get", path := some "/a",
          qs := some [("limit", JsValue.num 5)],
          body := some (.obj [("a", JsValue.num 1)]) }).1.h2method = some "GET") ∧
    ((CloudantClient.normalize ⟨"http://h", fun _ => "", none, 0, 1, "u"⟩
        { method := some "get", path := some "/a",
          qs := some [("limit", JsValue.num 5)],
          body := some (.obj [("a", JsValue.num 1)]) }).1.h2path = some "/a?limit=5") := by
  refine ⟨rfl, ?_, rfl, rfl, rfl, rfl⟩
  intro hcon
  rw [show (CloudantClient.normalize ⟨"http://h", fun _ => "", none, 0, 1, "u"⟩
        { method := some "get", path := some "/a",
          qs := some [("limit", JsValue.num 5)],
          body := some (.obj [("a", JsValue.num 1)]) }).1.method = none from rfl] at hcon
  exact Option.noConfusion hcon

/-- C8 amended: `request(desc)` mutates the caller's description: truthy
`method`, `path`, `qs` and `body` keys are all deleted, with the method
moved (uppercased) into `':method'` and the path moved into `':path'`
with the encoded query string appended — the caller's object afterwards
holds the normalized wire form, not its original fields. -/
theorem request_mutates_caller_opts (st : ClientState) (o : ReqOpts)
    (hm : truthyStr o.method = true) (hp : truthyStr o.path = true)
    (hq : o.qs.isSome) (hb : jsTruthyOpt o.body = true) :
    (CloudantClient.normalize st o).1.method = none ∧
    (CloudantClient.normalize st o).1.path = none ∧
    (CloudantClient.normalize st o).1.qs = none ∧
    (CloudantClient.normalize st o).1.body = none ∧
    (CloudantClient.normalize st o).1.h2method =
      some (jsToUpperCase (o.method.getD "")) ∧
    (∃ q, o.qs = some q ∧
      (CloudantClient.normalize st o).1.h2path =
        some (o.path.getD "" ++ "?" ++ querystringStringify q)) := by
  unfold CloudantClient.normalize
  refine ⟨?_, ?_, ?_, ?_, ?_, ?_⟩
  · simp only [stepRequestId_method, stepBodyDelete_method, stepAuth_method, stepQs_method,
      stepCookie_method, stepDefaultCT_method, stepDefaultPath_method,
      stepDefaultMethod_method, stepPath_method]
    unfold stepMethod
    rw [if_pos hm]
  · simp only [stepRequestId_path, stepBodyDelete_path, stepAuth_path, stepQs_path,
      stepCookie_path, stepDefaultCT_path, stepDefaultPath_path, stepDefaultMethod_path]
    unfold stepPath
    rw [if_pos (by rw [stepMethod_path]; exact hp)]
  · simp only [stepRequestId_qs, stepBodyDelete_qs, stepAuth_qs, stepQs_qs_none]
  · simp only [stepRequestId_body]
    have hXb : (stepAuth st (stepQs (stepCookie st (stepDefaultCT (stepDefaultPath
        (stepDefaultMethod (stepPath (stepMethod o)))))))).body = o.body := by
      simp only [stepAuth_body, stepQs_body, stepCookie_body, stepDefaultCT_body,
        stepDefaultPath_body, stepDefaultMethod_body, stepPath_body, stepMethod_body]
    unfold stepBodyDelete
    rw [hXb]
    cases hob : o.body with
    | none => rw [hob] at hb; exact absurd hb (by simp [jsTruthyOpt])
    | some b =>
        rw [hob] at hb
        dsimp only
        rw [if_pos (by simpa [jsTruthyOpt] using hb)]
  · simp only [stepRequestId_h2method, stepBodyDelete_h2method, stepAuth_h2method,
      stepQs_h2method, stepCookie_h2method, stepDefaultCT_h2method, stepDefaultPath_h2method]
    have h1 : (stepPath (stepMethod o)).h2method =
        some (jsToUpperCase (o.method.getD "")) := by
      rw [stepPath_h2method]
      unfold stepMethod
      rw [if_pos hm]
    obtain ⟨m, hom⟩ : ∃ m, o.method = some m := by
      cases hmm : o.method with
      | none => rw [hmm] at hm; exact absurd hm (by simp [truthyStr])
      | some m => exact ⟨m, rfl⟩
    have hm2 : m ≠ "" := by
      rw [hom] at hm; simpa [truthyStr] using hm
    unfold stepDefaultMethod
    rw [if_neg (by
      rw [h1]
      simp only [truthyStr, hom, Option.getD_some]
      simpa using jsToUpperCase_ne_empty m hm2)]
    exact h1
  · obtain ⟨q, hoq⟩ := Option.isSome_iff_exists.mp hq
    refine ⟨q, hoq, ?_⟩
    simp only [stepRequestId_h2path, stepBodyDelete_h2path, stepAuth_h2path]
    have hXqs : (stepCookie st (stepDefaultCT (stepDefaultPath (stepDefaultMethod
        (stepPath (stepMethod o)))))).qs = some q := by
      simp only [stepCookie_qs, stepDefaultCT_qs, stepDefaultPath_qs,
        stepDefaultMethod_qs, stepPath_qs, stepMethod_qs]
      exact hoq
    have hXp : (stepCookie st (stepDefaultCT (stepDefaultPath (stepDefaultMethod
        (stepPath (stepMethod o)))))).h2path = some (normalizedBasePath o) := by
      rw [stepCookie_h2path, stepDefaultCT_h2path, basePath_after_defaults]
    have hbp : normalizedBasePath o = o.path.getD "" := by
      unfold normalizedBasePath
      rw [if_pos hp]
    unfold stepQs
    rw [hXqs]
    dsimp only
    rw [hXp, hbp]
    simp only [Option.getD_some]

/-- Witness for C8 (amended) at the concrete description
`\x7bmethod: "get", path: "/a", qs: \x7blimit: 5\x7d, body: \x7ba: 1\x7d\x7d`. -/
theorem request_mutates_caller_opts_witness :
    (CloudantClient.normalize ⟨"http://h", fun _ => "", none, 0, 1, "u"⟩
        { method := some "get", path := some "/a",
          qs := some [("limit", JsValue.num 5)],
          body := some (.obj [("a", JsValue.num 1)]) }).1.method = none ∧
    (CloudantClient.normalize ⟨"http://h", fun _ => "", none, 0, 1, "u"⟩
        { method := some "get", path := some "/a",
          qs := some [("limit", JsValue.num 5)],
          body := some (.obj [("a", JsValue.num 1)]) }).1.path = none ∧
    (CloudantClient.normalize ⟨"http://h", fun _ => "", none, 0, 1, "u"⟩
        { method := some "get", path := some "/a",
          qs := some [("limit", JsValue.num 5)],
          body := some (.obj [("a", JsValue.num 1)]) }).1.qs = none ∧
    (CloudantClient.normalize ⟨"http://h", fun _ => "", none, 0, 1, "u"⟩
        { method := some "get", path := some "/a",
          qs := some [("limit", JsValue.num 5)],
          body := some (.obj [("a", JsValue.num 1)]) }).1.body = none ∧
    (CloudantClient.normalize ⟨"http://h", fun _ => "", none, 0, 1, "u"⟩
        { method := some "get", path := some "/a",
          qs := some [("limit", JsValue.num 5)],
          body := some (.obj [("a", JsValue.num 1)]) }).1.h2method =
      some (jsToUpperCase ((some "get" : Option String).getD "")) ∧
    (∃ q, (some [("limit", JsValue.num 5)] :
        Option (List (String × JsValue))) = some q ∧
      (CloudantClient.normalize ⟨"http://h", fun _ => "", none, 0, 1, "u"⟩
        { method := some "get", path := some "/a",
          qs := some [("limit", JsValue.num 5)],
          body := some (.obj [("a", JsValue.num 1)]) }).1.h2path =
        some ((some "/a" : Option String).getD "" ++ "?" ++ querystringStringify q)) :=
  request_mutates_caller_opts ⟨"http://h", fun _ => "", none, 0, 1, "u"⟩
    { method := some "get", path := some "/a",
      qs := some [("limit", JsValue.num 5)],
      body := some (.obj [("a", JsValue.num 1)]) } rfl rfl rfl rfl

end ClaimsAuth

section ClaimsIdem

open CloudantClient

/-- Helper: a joined path-plus-query string is never empty. -/
lemma append_q_ne_empty (a b : String) : a ++ "?" ++ b ≠ "" := by
  intro h
  have hd := congrArg String.data h
  rw [String.data_append, String.data_append] at hd
  have hq : ("?" : String).data = ['?'] := rfl
  rw [hq] at hd
  simp at hd

/-- Helper: appending the query string keeps `':path'` truthy. -/
lemma stepQs_h2path_truthy (o : ReqOpts) (h : truthyStr o.h2path = true) :
    truthyStr (stepQs o).h2path = true := by
  unfold stepQs
  split
  · simp only [truthyStr]
    simpa using append_q_ne_empty (o.h2path.getD "") _
  · exact h

/-- Helper: a falsy `method` key leaves the object unchanged. -/
lemma stepMethod_id_of_falsy (o : ReqOpts) (h : truthyStr o.method = false) :
    stepMethod o = o := by
  unfold stepMethod
  rw [if_neg (by simp [h])]

/-- Helper: a falsy `path` key leaves the object unchanged. -/
lemma stepPath_id_of_falsy (o : ReqOpts) (h : truthyStr o.path = false) :
    stepPath o = o := by
  unfold stepPath
  rw [if_neg (by simp [h])]

/-- Helper: a truthy `':method'` needs no default. -/
lemma stepDefaultMethod_id_of_truthy (o : ReqOpts) (h : truthyStr o.h2method = true) :
    stepDefaultMethod o = o := by
  unfold stepDefaultMethod
  rw [if_neg (not_not_intro h)]

/-- Helper: a truthy `':path'` needs no default. -/
lemma stepDefaultPath_id_of_truthy (o : ReqOpts) (h : truthyStr o.h2path = true) :
    stepDefaultPath o = o := by
  unfold stepDefaultPath
  rw [if_neg (not_not_intro h)]

/-- Helper: a truthy content-type needs no default. -/
lemma stepDefaultCT_id_of_truthy (o : ReqOpts) (h : truthyStr o.contentType = true) :
    stepDefaultCT o = o := by
  unfold stepDefaultCT
  rw [if_neg (not_not_intro h)]

/-- Helper: an absent `qs` key leaves the object unchanged. -/
lemma stepQs_id_of_none (o : ReqOpts) (h : o.qs = none) : stepQs o = o := by
  unfold stepQs
  split
  · rename_i q heq; rw [h] at heq; cases heq
  · rfl

@[simp] lemma stepCookie_ct (st : ClientState) (o : ReqOpts) :
    (stepCookie st o).contentType = o.contentType := by
  unfold stepCookie; dsimp only; split <;> rfl

@[simp] lemma stepQs_ct (o : ReqOpts) : (stepQs o).contentType = o.contentType := by
  unfold stepQs; split <;> rfl

@[simp] lemma stepAuth_ct (st : ClientState) (o : ReqOpts) :
    (stepAuth st o).contentType = o.contentType := by
  unfold stepAuth; split <;> rfl

@[simp] lemma stepBodyDelete_ct (o : ReqOpts) :
    (stepBodyDelete o).contentType = o.contentType := by
  unfold stepBodyDelete; rcases o.body with _ | b
  · rfl
  · dsimp only; split <;> rfl

@[simp] lemma stepRequestId_ct (st : ClientState) (o : ReqOpts) :
    (stepRequestId st o).contentType = o.contentType := rfl

/-- C9: normalization is idempotent on the wire method/path — feeding the
(mutated, already-normalized) description through `request`'s
normalization again, under any client state, leaves `':method'` and
`':path'` unchanged: the `method`/`path`/`qs` keys are gone after the
first pass, `':method'`/`':path'` are truthy, so every defaulting and
rewriting step of the second pass is a no-op for the wire shape. -/
theorem normalize_wire_idempotent (st st2 : ClientState) (o : ReqOpts) :
    (CloudantClient.normalize st2 (CloudantClient.normalize st o).1).1.h2method =
      (CloudantClient.normalize st o).1.h2method ∧
    (CloudantClient.normalize st2 (CloudantClient.normalize st o).1).1.h2path =
      (CloudantClient.normalize st o).1.h2path := by
  set n1 := (CloudantClient.normalize st o).1 with hn1
  have hmeth : truthyStr n1.method = false := by
    rw [hn1]; unfold CloudantClient.normalize
    simp only [stepRequestId_method, stepBodyDelete_method, stepAuth_method, stepQs_method,
      stepCookie_method, stepDefaultCT_method, stepDefaultPath_method,
      stepDefaultMethod_method, stepPath_method, stepMethod_method_falsy]
  have hpath : truthyStr n1.path = false := by
    rw [hn1]; unfold CloudantClient.normalize
    simp only [stepRequestId_path, stepBodyDelete_path, stepAuth_path, stepQs_path,
      stepCookie_path, stepDefaultCT_path, stepDefaultPath_path, stepDefaultMethod_path,
      stepPath_path_falsy]
  have hqs : n1.qs = none := by
    rw [hn1]; unfold CloudantClient.normalize
    simp only [stepRequestId_qs, stepBodyDelete_qs, stepAuth_qs, stepQs_qs_none]
  have hh2m : truthyStr n1.h2method = true := by
    rw [hn1]; unfold CloudantClient.normalize
    simp only [stepRequestId_h2method, stepBodyDelete_h2method, stepAuth_h2method,
      stepQs_h2method, stepCookie_h2method, stepDefaultCT_h2method, stepDefaultPath_h2method,
      stepDefaultMethod_h2method_truthy]
  have hh2p : truthyStr n1.h2path = true := by
    rw [hn1]; unfold CloudantClient.normalize
    simp only [stepRequestId_h2path, stepBodyDelete_h2path, stepAuth_h2path]
    apply stepQs_h2path_truthy
    simp only [stepCookie_h2path, stepDefaultCT_h2path, stepDefaultPath_h2path_truthy]
  have hct : truthyStr n1.contentType = true := by
    rw [hn1]; unfold CloudantClient.normalize
    simp only [stepRequestId_ct, stepBodyDelete_ct, stepAuth_ct, stepQs_ct,
      stepCookie_ct, stepDefaultCT_ct_truthy]
  have e1 : stepMethod n1 = n1 := stepMethod_id_of_falsy _ hmeth
  have e2 : stepPath n1 = n1 := stepPath_id_of_falsy _ hpath
  have e3 : stepDefaultMethod n1 = n1 := stepDefaultMethod_id_of_truthy _ hh2m
  have e4 : stepDefaultPath n1 = n1 := stepDefaultPath_id_of_truthy _ hh2p
  have e5 : stepDefaultCT n1 = n1 := stepDefaultCT_id_of_truthy _ hct
  constructor
  · show (CloudantClient.normalize st2 n1).1.h2method = n1.h2method
    unfold CloudantClient.normalize
    simp only [stepRequestId_h2method, stepBodyDelete_h2method, stepAuth_h2method,
      stepQs_h2method, stepCookie_h2method, stepDefaultCT_h2method, stepDefaultPath_h2method]
    rw [e1, e2, e3]
  · show (CloudantClient.normalize st2 n1).1.h2path = n1.h2path
    unfold CloudantClient.normalize
    simp only [stepRequestId_h2path, stepBodyDelete_h2path, stepAuth_h2path]
    rw [e1, e2, e3, e4, e5]
    rw [stepQs_id_of_none _ (by rw [stepCookie_qs]; exact hqs)]
    rw [stepCookie_h2path]

end ClaimsIdem

section ClaimsPaths

open CloudantClient

/-- Helper: a hex digit character is never a slash. -/
lemma hexDigit_ne_slash (n : Nat) : hexDigit n ≠ '/' := by
  unfold hexDigit
  split <;> decide

/-- Helper: `encodeURIComponent` output never contains a slash — `/` is
not in the unreserved set and percent escapes consist of `%` plus hex
digits. -/
lemma encodeURIComponent_no_slash (s : String) :
    '/' ∉ (encodeURIComponent s).data := by
  intro hmem
  unfold encodeURIComponent at hmem
  rw [show (⟨s.data.flatMap (fun c =>
      if uriUnreserved c then [c]
      else (utf8Bytes c).flatMap percentByte)⟩ : String).data =
      s.data.flatMap (fun c =>
      if uriUnreserved c then [c]
      else (utf8Bytes c).flatMap percentByte) from rfl] at hmem
  rw [List.mem_flatMap] at hmem
  obtain ⟨c, _, hc⟩ := hmem
  by_cases hu : uriUnreserved c = true
  · rw [if_pos hu] at hc
    simp only [List.mem_singleton] at hc
    subst hc
    exact absurd hu (by decide)
  · rw [if_neg hu] at hc
    rw [List.mem_flatMap] at hc
    obtain ⟨b, _, hb⟩ := hc
    unfold percentByte at hb
    simp only [List.mem_cons, List.mem_singleton, List.not_mem_nil, or_false] at hb
    rcases hb with hb | hb | hb
    · exact absurd hb (by decide)
    · exact hexDigit_ne_slash _ hb.symm
    · exact hexDigit_ne_slash _ hb.symm

/-- Helper: ensuring a leading slash makes the first character a slash. -/
lemma ensure_head (p : String) :
    (ensureStartSlash p).data.head? = some '/' := by
  unfold ensureStartSlash
  split
  · rename_i h
    unfold startsSlash at h
    simpa using h
  · rfl

/-- Helper: stripping the trailing slash either empties the string or
preserves its first character. -/
lemma strip_head (e : String) :
    (stripEndSlash e).data = [] ∨ (stripEndSlash e).data.head? = e.data.head? := by
  unfold stripEndSlash
  split
  · rename_i hlast
    cases hr : e.data.reverse with
    | nil => left; rfl
    | cons c cs =>
        cases hcs : cs.reverse with
        | nil =>
            left
            show (c :: cs).tail.reverse = []
            exact hcs
        | cons d ds =>
            right
            show (c :: cs).tail.reverse.head? = e.data.head?
            have he : e.data = cs.reverse ++ [c] := by
              have := congrArg List.reverse hr
              simpa using this
            rw [he]
            show cs.reverse.head? = (cs.reverse ++ [c]).head?
            rw [hcs]
            simp
  · right; rfl

/-- Helper: if a string does not end in a double slash, stripping its one
trailing slash leaves no trailing slash at all. -/
lemma strip_no_trailing (e : String) (h : endsTwoSlash e = false) :
    (stripEndSlash e).data.reverse.head? ≠ some '/' := by
  unfold stripEndSlash
  unfold endsTwoSlash at h
  rw [decide_eq_false_iff_not] at h
  split
  · rename_i hlast
    show e.data.reverse.tail.reverse.reverse.head? ≠ some '/'
    rw [List.reverse_reverse]
    intro hcon
    exact h ⟨hlast, hcon⟩
  · rename_i hlast
    exact hlast

/-- Helper: prepending the leading slash cannot create a trailing double
slash. -/
lemma ensure_endsTwo (p : String) (h : endsTwoSlash p = false) :
    endsTwoSlash (ensureStartSlash p) = false := by
  unfold ensureStartSlash
  split
  · exact h
  · rename_i hns
    unfold endsTwoSlash at h ⊢
    rw [decide_eq_false_iff_not] at h
    rw [decide_eq_false_iff_not]
    rw [show ("/" ++ p).data = '/' :: p.data from rfl, List.reverse_cons]
    rintro ⟨hh, ht⟩
    cases hr : p.data.reverse with
    | nil => rw [hr] at ht; simp at ht
    | cons c cs =>
        rw [hr] at ht hh
        simp only [List.cons_append, List.tail_cons] at ht
        simp only [List.cons_append, List.head?_cons, Option.some.injEq] at hh
        cases cs with
        | nil =>
            apply hns
            unfold startsSlash
            have hp : p.data = [c] := by
              have := congrArg List.reverse hr
              simpa using this
            rw [hp, hh]
            simp
        | cons d ds =>
            simp only [List.cons_append, List.head?_cons, Option.some.injEq] at ht
            apply h
            rw [hr]
            exact ⟨by simp [hh], by simp [ht]⟩

/-- Helper: the combined path always begins with a slash. -/
lemma combine_head (p1 p2 : String) (h2 : p2 ≠ "") :
    (combinePaths p1 p2).data.head? = some '/' := by
  unfold combinePaths
  dsimp only
  rw [if_pos h2, String.data_append]
  rcases strip_head (ensureStartSlash p1) with hA | hA
  · rw [hA, List.nil_append]
    exact ensure_head p2
  · have hA2 : (stripEndSlash (ensureStartSlash p1)).data.head? = some '/' := by
      rw [hA]; exact ensure_head p1
    cases hAd : (stripEndSlash (ensureStartSlash p1)).data with
    | nil => rw [List.nil_append]; exact ensure_head p2
    | cons c cs =>
        rw [hAd] at hA2
        simp only [List.head?_cons, Option.some.injEq] at hA2
        simp [hA2]

/-- Helper: every path produced by the `db(dbName)` helper starts with
`'/' + encodeURIComponent(dbName)`. -/
lemma dbRequestPath_prefix (dbName : String) (op : Option String) :
    ∃ suffix, (dbRequestPath dbName op).data =
      '/' :: (encodeURIComponent dbName).data ++ suffix := by
  have hroot : (("/" ++ encodeURIComponent dbName) : String).data =
      '/' :: (encodeURIComponent dbName).data := rfl
  have hens : ensureStartSlash ("/" ++ encodeURIComponent dbName) =
      "/" ++ encodeURIComponent dbName := by
    unfold ensureStartSlash
    rw [if_pos (by unfold startsSlash; rw [hroot]; simp)]
  cases op with
  | none => exact ⟨[], by unfold dbRequestPath; rw [hroot]; simp⟩
  | some p =>
      by_cases hp : p = ""
      · refine ⟨[], ?_⟩
        unfold dbRequestPath
        dsimp only
        rw [if_neg (not_not_intro hp), hroot]
        simp
      · unfold dbRequestPath
        dsimp only
        rw [if_pos hp]
        unfold combinePaths
        dsimp only
        rw [if_pos hp, hens]
        cases henc : (encodeURIComponent dbName).data with
        | nil =>
            -- the root is bare "/", which strips to "" — the suffix is the
            -- whole ensured path, which itself starts with '/'
            have hstrip : stripEndSlash ("/" ++ encodeURIComponent dbName) = "" := by
              unfold stripEndSlash
              rw [if_pos (by rw [hroot, henc]; rfl)]
              rw [show ("" : String) = (⟨[]⟩ : String) from rfl]
              rw [hroot, henc]
              rfl
            rw [hstrip]
            have hB := ensure_head p
            cases hBd : (ensureStartSlash p).data with
            | nil => rw [hBd] at hB; simp at hB
            | cons c cs =>
                rw [hBd] at hB
                simp only [List.head?_cons, Option.some.injEq] at hB
                refine ⟨cs, ?_⟩
                rw [String.data_append, hBd, hB]
                simp [henc]
        | cons c cs =>
            have hne : (encodeURIComponent dbName).data.reverse ≠ [] := by
              rw [henc]; simp
            have hstrip : stripEndSlash ("/" ++ encodeURIComponent dbName) =
                "/" ++ encodeURIComponent dbName := by
              unfold stripEndSlash
              rw [if_neg ?_]
              intro hcon
              rw [hroot, List.reverse_cons, List.head?_append_of_ne_nil _ hne] at hcon
              have hmem : '/' ∈ (encodeURIComponent dbName).data := by
                rw [← List.mem_reverse]
                cases hx : (encodeURIComponent dbName).data.reverse with
                | nil => exact absurd hx hne
                | cons a as =>
                    rw [hx] at hcon
                    simp only [List.head?_cons, Option.some.injEq] at hcon
                    rw [hcon] at hx ⊢
                    simp
              exact encodeURIComponent_no_slash dbName hmem
            rw [hstrip]
            exact ⟨(ensureStartSlash p).data,
              by rw [String.data_append, hroot, henc]⟩

/-- C10 counterexample: `combinePaths` removes only a single trailing
slash from `p1` (the regex `/\/$/` matches one character), so
`combinePaths("a//", "b")` is `/a//b` — with a double slash at the join —
and not the `/a/b` the claim's "any trailing '/' removed" would give. -/
theorem combinePaths_double_slash_cex :
    CloudantClient.combinePaths "a//" "b" = "/a//b" ∧
    ("/a//b" : String) ≠ "/a" ++ "/b" := by
  exact ⟨rfl, by decide⟩

/-- C10 amended: `combinePaths(p1, p2)` (for truthy `p2`) returns `p1`
with a leading slash ensured and ONE trailing slash removed, concatenated
with `p2` with a leading slash ensured; the result begins with `/`, and
provided `p1` does not end in two or more slashes there is no `//` at the
join point (the left part never ends in `/`, the right part always starts
with one).  `db(dbName).request` prefixes every path with
`'/' + encodeURIComponent(dbName)`. -/
theorem combinePaths_db_amended (p1 p2 : String) (h2 : p2 ≠ "")
    (h1 : endsTwoSlash p1 = false) (dbName : String) (op : Option String) :
    combinePaths p1 p2 =
      stripEndSlash (ensureStartSlash p1) ++ ensureStartSlash p2 ∧
    (combinePaths p1 p2).data.head? = some '/' ∧
    (ensureStartSlash p2).data.head? = some '/' ∧
    (stripEndSlash (ensureStartSlash p1)).data.reverse.head? ≠ some '/' ∧
    (∃ suffix, (dbRequestPath dbName op).data =
      '/' :: (encodeURIComponent dbName).data ++ suffix) := by
  refine ⟨?_, combine_head p1 p2 h2, ensure_head p2,
    strip_no_trailing _ (ensure_endsTwo p1 h1), dbRequestPath_prefix dbName op⟩
  unfold combinePaths
  dsimp only
  rw [if_pos h2]

/-- Witness for C10 (amended) at `p1 = "mydb/"`, `p2 = "docid"`,
`dbName = "my db"`, `opts.path = "/_all_docs"`. -/
theorem combinePaths_db_amended_witness :
    combinePaths "mydb/" "docid" =
      stripEndSlash (ensureStartSlash "mydb/") ++ ensureStartSlash "docid" ∧
    (combinePaths "mydb/" "docid").data.head? = some '/' ∧
    (ensureStartSlash "docid").data.head? = some '/' ∧
    (stripEndSlash (ensureStartSlash "mydb/")).data.reverse.head? ≠ some '/' ∧
    (∃ suffix, (dbRequestPath "my db" (some "/_all_docs")).data =
      '/' :: (encodeURIComponent "my db").data ++ suffix) :=
  combinePaths_db_amended "mydb/" "docid" (by decide) (by decide) "my db"
    (some "/_all_docs")

end ClaimsPaths
